import Mathlib

/-!
# Verification of the SAF-T ingestion engine (saft repository)

A shallow embedding, in Lean 4, of the ingestion core of the repository:

* `src/parsers/saft_stream_parser.py` — the streaming parser (`parse_saft`),
* `src/parsers/saft_parser_pro.py` — the fallback full parser (`parse_saft`),
* `src/parsers/common.py` — account-number canonicalization (`norm_acc`).

Modelling conventions:

* Python `Decimal` values are modelled exactly by `Dec` (integer mantissa and
  a decimal scale); arithmetic is exact, which matches `Decimal` for all
  results within its 28-digit default precision (the parsers never exceed it
  on realistic monetary data, and the balance specification presumes exact
  sums).  Rational semantics is given by `Dec.toRat`.
* XML documents are immutable trees (`XElem`); the `lxml.etree.iterparse`
  event stream is the standard preorder start/end stream (`XElem.events`).
  Each event carries the complete element, which matches `iterparse` on
  documents parsed within one read buffer (the subtree-clearing calls in the
  source are a memory optimisation with no effect on the emitted rows for
  such documents, and are not modelled).
* Python dictionaries are modelled by association lists where the most
  recent insertion is found first; Python sets by duplicate-free lists.
* Modelled sinks: header, accounts, tax_table, customers, suppliers,
  arap_control_accounts, gl_totals, journals (streaming only), vouchers,
  transactions, analysis_lines, sales_invoices, purchase_invoices, and the
  missing-accounts artifact.  The `Analysis` and `Invoice` handlers read the
  parent chain (`el.getparent()`), so they are driven by the contextual
  event stream `CEvt`/`XElem.eventsC`, which pairs each event with the open
  ancestor chain; the remaining handlers never read ancestors and are
  verified over the plain stream `Evt`/`XElem.events` as well.  The raw
  per-element debug dump (env-gated, off by default in the streaming
  parser) appends only to its own channel and is not modelled.
* Python string `.strip()` is modelled for the ASCII whitespace actually
  occurring in the format; `Decimal(...)` string conversion is modelled for
  the plain (non-exponent) decimal literals the producers emit.
-/

namespace Saft

/-- ASCII whitespace stripped by Python `str.strip()` (the characters that
occur in the documents; the non-breaking space is removed separately by the
amount normalizer before stripping). -/
def isPySpace (c : Char) : Bool :=
  c = ' ' || c = '\t' || c = '\n' || c = '\r' || c = '\x0b' || c = '\x0c'

/-- Python `s.strip()` on a character list. -/
def pyStrip (cs : List Char) : List Char :=
  ((cs.dropWhile isPySpace).reverse.dropWhile isPySpace).reverse

/-- `_lname` of both parser modules: the part of a tag after the first `}`
when one is present (namespace stripping), the tag itself otherwise. -/
def lname (s : String) : String :=
  if s.data.contains '}' then ⟨(s.data.dropWhile (fun c => c ≠ '}')).tail⟩ else s

/-- Exact Python `Decimal`: value `man / 10 ^ scale`.  All decimals built by
the parsers have non-positive exponent, i.e. non-negative `scale`. -/
structure Dec where
  man : Int
  scale : Nat
  deriving Repr, DecidableEq

namespace Dec

/-- `Decimal("0")`. -/
def zero : Dec := ⟨0, 0⟩

/-- The rational value of a decimal. -/
def toRat (a : Dec) : ℚ := (a.man : ℚ) / 10 ^ a.scale

/-- Exact `Decimal` addition: operands are aligned to the larger scale.
(The exponent of an exact sum is the smaller operand exponent.) -/
def add (a b : Dec) : Dec :=
  let s := max a.scale b.scale
  ⟨a.man * 10 ^ (s - a.scale) + b.man * 10 ^ (s - b.scale), s⟩

/-- Exact `Decimal` subtraction. -/
def sub (a b : Dec) : Dec :=
  let s := max a.scale b.scale
  ⟨a.man * 10 ^ (s - a.scale) - b.man * 10 ^ (s - b.scale), s⟩

/-- `Decimal.copy_abs()`: absolute value of the mantissa, same exponent. -/
def copyAbs (a : Dec) : Dec := ⟨|a.man|, a.scale⟩

/-- Numeric comparison of two decimals (`<=` on `Decimal`). -/
def le (a b : Dec) : Prop := a.man * 10 ^ b.scale ≤ b.man * 10 ^ a.scale

instance : Decidable (Dec.le a b) := by unfold Dec.le; infer_instance

/-- Truthiness of a `Decimal` in Python (`bool(d)`): nonzero value. -/
def isTruthy (a : Dec) : Bool := a.man ≠ 0

/-- Python `x or Decimal("0")` applied to an optional decimal: `None` and
numerically-zero decimals are replaced by `Decimal("0")` (which resets the
exponent of a zero like `0.00` to `0`). -/
def orZero (o : Option Dec) : Dec :=
  match o with
  | none => zero
  | some d => if d.man = 0 then zero else d

/-- Digit string of a natural number (used by `repr`). -/
def natDigits (n : Nat) : String := toString n

/-- Python `str(Decimal)` (equivalently `f"{d}"`) for decimals with
non-negative scale: insert the decimal point `scale` digits from the right,
falling back to scientific notation when the adjusted exponent drops below
`-6` exactly as the `Decimal` specification does.  (The model does not carry
a sign on zero, so `-0.00` prints as `0.00`; no claim depends on negative
zero.) -/
def repr (a : Dec) : String :=
  let ds := natDigits a.man.natAbs
  let sign := if a.man < 0 then "-" else ""
  if a.scale = 0 then sign ++ ds
  else if (ds.length : Int) - 1 - (a.scale : Int) ≥ -6 then
    if a.scale < ds.length then
      sign ++ ⟨ds.data.take (ds.length - a.scale)⟩ ++ "." ++ ⟨ds.data.drop (ds.length - a.scale)⟩
    else
      sign ++ "0." ++ ⟨List.replicate (a.scale - ds.length) '0'⟩ ++ ds
  else
    let adj : Int := (ds.length : Int) - 1 - (a.scale : Int)
    let tailDigits := if ds.length ≤ 1 then "" else "." ++ ⟨ds.data.drop 1⟩
    sign ++ ⟨ds.data.take 1⟩ ++ tailDigits ++ "E" ++ (if adj ≥ 0 then "+" else "") ++ toString adj

end Dec

/-- Numeric value of a digit list (most significant first). -/
def natOfDigits (cs : List Char) : Nat :=
  cs.foldl (fun n c => 10 * n + (c.toNat - '0'.toNat)) 0

/-- The `Decimal(string)` constructor on the plain decimal literals produced
by `_norm_amount_str` (optional sign, integer digits, optional fractional
part); any other character sequence raises `InvalidOperation` in Python and
yields `none` here. -/
def parseDecAfterSign (sgn : Int) (rest : List Char) : Option Dec :=
  let ip := rest.takeWhile Char.isDigit
  let r1 := rest.dropWhile Char.isDigit
  if r1.isEmpty then
    if ip.isEmpty then none else some ⟨sgn * natOfDigits ip, 0⟩
  else if r1.head? = some '.' then
    let fs := r1.tail
    let fp := fs.takeWhile Char.isDigit
    if (fs.dropWhile Char.isDigit).isEmpty = false then none
    else if ip.isEmpty && fp.isEmpty then none
    else some ⟨sgn * (natOfDigits ip * 10 ^ fp.length + natOfDigits fp), fp.length⟩
  else none

def parseDecChars (cs : List Char) : Option Dec :=
  if cs.head? = some '+' then parseDecAfterSign 1 cs.tail
  else if cs.head? = some '-' then parseDecAfterSign (-1) cs.tail
  else parseDecAfterSign 1 cs

/-- `_norm_amount_str` (identical in `saft_stream_parser.py` lines 35–45 and
`saft_parser_pro.py` lines 35–44): remove non-breaking spaces and strip; if
both `,` and `.` occur remove every `,`; else if only `,` occurs remove every
`.` and turn `,` into `.`; else if more than one `.` occurs remove every `.`;
finally remove plain spaces. -/
def normAmountSeps (s : List Char) : List Char :=
  if s.contains ',' && s.contains '.' then
    s.filter (fun c => c ≠ ',')
  else if s.contains ',' then
    (s.filter (fun c => c ≠ '.')).map (fun c => if c = ',' then '.' else c)
  else if 1 < s.count '.' then
    s.filter (fun c => c ≠ '.')
  else s

def normAmountChars (cs : List Char) : List Char :=
  (normAmountSeps (pyStrip (cs.filter (fun c => c ≠ '\u00A0')))).filter (fun c => c ≠ ' ')

/-- `_norm_amount_str` on strings. -/
def normAmountStr (s : String) : String := ⟨normAmountChars s.data⟩

/-- `_to_dec`: `None`/empty text gives `None`; otherwise normalize and let
`Decimal` parse, mapping failure to `None`. -/
def toDec (txt : Option String) : Option Dec :=
  match txt with
  | none => none
  | some t => if t = "" then none else parseDecChars (normAmountChars t.data)

/-- `norm_acc` of `src/parsers/common.py` lines 69–77 on a (non-`None`)
string: strip, delete every non-digit, map the empty result to `""`, strip
leading zeros, and map an all-zero result to `"0"`. -/
def normAcc (x : String) : String :=
  let s := (pyStrip x.data).filter Char.isDigit
  if s.isEmpty then ""
  else
    let t := s.dropWhile (fun c => c = '0')
    if t.isEmpty then "0" else ⟨t⟩

/-- An XML element: tag (possibly namespace-qualified), attributes, text
content, and child elements.  Trees are immutable values; the source's
`el.clear()` memory pruning is not modelled (see the module docstring). -/
inductive XElem where
  | node (tag : String) (attrs : List (String × String)) (text : Option String)
      (children : List XElem)

namespace XElem

def tag : XElem → String
  | node t _ _ _ => t

def attrs : XElem → List (String × String)
  | node _ a _ _ => a

def text : XElem → Option String
  | node _ _ x _ => x

def children : XElem → List XElem
  | node _ _ _ cs => cs

/-- `el.get(key)`: first attribute with the given name. -/
def getAttr (e : XElem) (k : String) : Option String :=
  (e.attrs.find? (fun p => p.1 = k)).map Prod.snd

mutual

/-- `el.iter()` of lxml: the element itself followed by all descendants in
document order. -/
def iterAll : XElem → List XElem
  | node t a x cs => node t a x cs :: iterAllList cs

/-- Document-order iteration of a forest (the concatenation of the `iter()`
streams of the roots). -/
def iterAllList : List XElem → List XElem
  | [] => []
  | c :: cs => iterAll c ++ iterAllList cs

end

/-- Strict descendants in document order (`el.iter()` minus the element
itself, as produced by the `sub is not ch` guard in `_amount_of`). -/
def descendants (e : XElem) : List XElem :=
  iterAllList e.children

end XElem

/-- A parse event of `lxml.etree.iterparse(events=("start","end"))`. -/
inductive Evt where
  | start (e : XElem)
  | stop (e : XElem)

mutual

/-- The start/end event stream `lxml.etree.iterparse` delivers for a
document (events of a subtree are nested between the start and the end event
of its root). -/
def XElem.events : XElem → List Evt
  | .node t a x cs =>
      Evt.start (.node t a x cs) :: (XElem.eventsList cs ++ [Evt.stop (.node t a x cs)])

/-- The concatenated event streams of a forest of sibling subtrees. -/
def XElem.eventsList : List XElem → List Evt
  | [] => []
  | c :: cs => XElem.events c ++ XElem.eventsList cs

end

/-- `_text(node)` of both parsers: the stripped element text when non-empty. -/
def textOf (e : XElem) : Option String :=
  match e.text with
  | none => none
  | some t =>
      let s : String := ⟨pyStrip t.data⟩
      if s = "" then none else some s

/-- `_first(el, keys)` (identical in both parsers): for each key in order,
scan `el.iter()` in document order and return the first non-empty stripped
text of an element whose local name equals the key. -/
def firstTag (e : XElem) (keys : List String) : Option String :=
  match keys with
  | [] => none
  | k :: ks =>
      match (e.iterAll.filterMap
          (fun ch => if lname ch.tag = k then textOf ch else none)).head? with
      | some v => some v
      | none => firstTag e ks

/-- `_amount_of(node, key)` (identical in both parsers): scan `node.iter()`
for elements whose local name is `key`; for the first such element that
yields a value — its own parsed text, else the parsed text of its first
strict descendant named `Amount`, else its parsed `Amount` attribute —
return that decimal.  Elements named `key` that yield nothing are skipped
and the scan continues. -/
def amountOfElem (ch : XElem) : Option Dec :=
  match toDec (textOf ch) with
  | some d => some d
  | none =>
      let viaChild :=
        match (ch.descendants.find? (fun sub => lname sub.tag = "Amount")) with
        | some sub => toDec (textOf sub)
        | none => none
      match viaChild with
      | some d => some d
      | none =>
          match ch.getAttr "Amount" with
          | some av => if av = "" then none else toDec (some av)
          | none => none

def amountOf (e : XElem) (key : String) : Option Dec :=
  (e.iterAll.filterMap
    (fun ch => if lname ch.tag = key then amountOfElem ch else none)).head?



/-- The description/tax-code record kept per declared account
(`accounts[acc_id] = {"AccountDescription": ..., "TaxCode": ...}`). -/
structure AccInfo where
  desc : String
  taxCode : String
  deriving Repr, DecidableEq

/-- The name/VAT record kept per declared customer or supplier. -/
structure PartyInfo where
  name : String
  vat : String
  deriving Repr, DecidableEq

/-- The run-scoped lookup dictionaries of `parse_saft` (both parsers):
`accounts`, `customers`, `suppliers`, `customer_ctrl`, `supplier_ctrl`.
Dictionaries are association lists; insertion prepends, lookup takes the
first (i.e. most recent) binding, which matches Python `dict` get/set. -/
structure Lookups where
  accounts : List (String × AccInfo)
  customers : List (String × PartyInfo)
  suppliers : List (String × PartyInfo)
  customerCtrl : List (String × String)
  supplierCtrl : List (String × String)
  deriving Repr, DecidableEq

/-- `d.get(k)` on a modelled dictionary. -/
def lookupGet (l : List (String × A)) (k : String) : Option A :=
  (l.find? (fun p => p.1 = k)).map Prod.snd

/-- `set.add` on a modelled set. -/
def seenInsert (l : List String) (a : String) : List String :=
  if a ∈ l then l else a :: l

/-- `unknown_counts[tag] = unknown_counts.get(tag, 0) + 1`. -/
def bumpCount (l : List (String × Nat)) (k : String) : List (String × Nat) :=
  match lookupGet l k with
  | some n => (k, n + 1) :: l
  | none => (k, 1) :: l

/-- The `cur_voucher` accumulator allocated on a `Transaction` start event
(`saft_stream_parser.py` lines 401–417, `saft_parser_pro.py` lines 309–328;
the field lists are identical). -/
structure Voucher where
  voucherId : Option String
  voucherNo : Option String
  txDate : Option String
  postDate : Option String
  period : Option String
  year : Option String
  sourceDoc : Option String
  journalId : Option String
  currency : Option String
  vtype : Option String
  vdesc : Option String
  modDate : Option String
  debit : Dec
  credit : Dec
  deriving Repr, DecidableEq

/-- Builds the accumulator from the `Transaction` element (all fields are
resolved through `_first`; running totals start at `Decimal("0")`). -/
def voucherOf (el : XElem) : Voucher where
  voucherId := firstTag el ["TransactionID", "TransactionNo", "VoucherID", "EntryID"]
  voucherNo := firstTag el ["VoucherNo", "TransactionNo", "TransactionID", "EntryNumber"]
  txDate := firstTag el ["TransactionDate", "EntryDate"]
  postDate := firstTag el ["PostingDate", "GLDate", "ValueDate"]
  period := firstTag el ["Period"]
  year := firstTag el ["FiscalYear", "Year"]
  sourceDoc := firstTag el ["SourceDocumentID", "SourceID", "DocumentNumber", "DocumentNo", "ReferenceNumber"]
  journalId := firstTag el ["JournalID", "Journal", "JournalNo", "JournalCode"]
  currency := firstTag el ["CurrencyCode", "TransactionCurrency"]
  vtype := firstTag el ["VoucherType"]
  vdesc := firstTag el ["VoucherDescription", "Description"]
  modDate := firstTag el ["ModificationDate"]
  debit := Dec.zero
  credit := Dec.zero

/-- The modelled entity sinks, as ordered lists of rows (each row an ordered
list of cells, exactly the cell strings handed to `csv.DictWriter`). -/
structure Rows where
  header : List (List String)
  accounts : List (List String)
  tax : List (List String)
  customers : List (List String)
  suppliers : List (List String)
  arap : List (List String)
  glTotals : List (List String)
  journals : List (List String)
  vouchers : List (List String)
  transactions : List (List String)
  analysis : List (List String)
  salesInv : List (List String)
  purchInv : List (List String)
  deriving Repr, DecidableEq

def Rows.empty : Rows := ⟨[], [], [], [], [], [], [], [], [], [], [], [], []⟩

/-- Parser state shared by the two embeddings.  The fallback parser never
touches `unknown`, `events` or `cancelled` (it has no census, progress or
cancellation) and never writes the `journals` sink. -/
structure SState where
  look : Lookups
  seen : List String
  unknown : List (String × Nat)
  cur : Option Voucher
  rows : Rows
  events : Nat
  cancelled : Bool
  deriving Repr, DecidableEq

def initState : SState := ⟨⟨[], [], [], [], []⟩, [], [], none, Rows.empty, 0, false⟩

/-- `KNOWN` of `saft_stream_parser.py` lines 129–142. -/
def KNOWN : List String :=
  ["AuditFile", "Header", "MasterFiles", "GeneralLedgerEntries", "SourceDocuments",
   "GeneralLedgerAccounts", "TaxTable", "Customers", "Suppliers",
   "Account", "GeneralLedgerAccount", "TaxTableEntry", "Customer", "Supplier",
   "Journal", "Transaction", "Line", "TransactionLine", "JournalLine",
   "Analysis", "AnalysisType", "AnalysisID", "AnalysisAmount", "DebitAnalysisAmount", "CreditAnalysisAmount",
   "TransactionID", "TransactionDate", "PostingDate", "Period", "FiscalYear", "Year",
   "DebitAmount", "CreditAmount", "TaxType", "TaxCountryRegion", "TaxCode", "TaxPercentage",
   "DebitTaxAmount", "CreditTaxAmount", "TaxAmount",
   "SalesInvoices", "PurchaseInvoices", "Invoice", "InvoiceNo", "InvoiceDate", "DueDate",
   "FileCreationDateTime", "FileCreationDate", "AuditFileVersion", "SelectionStart", "SelectionEnd",
   "SelectionStartDate", "SelectionEndDate", "StartDate", "EndDate",
   "CompanyName", "CompanyID", "FunctionalCurrency", "DefaultCurrencyCode", "ProductVersion",
   "SoftwareCertificateNumber",
   "GroupingCategory", "GroupingCode", "ParentAccountID", "AccountType", "AccountDescription",
   "GLAccountID", "Type"]

/-- `KNOWN_CONTAINERS` of `saft_stream_parser.py` lines 143–145. -/
def KNOWN_CONTAINERS : List String :=
  ["MasterFiles", "GeneralLedgerEntries", "SourceDocuments", "GeneralLedgerAccounts",
   "Customers", "Suppliers", "SalesInvoices", "PurchaseInvoices"]

/-- The tag names that close a transaction line. -/
def lineTags : List String := ["Line", "TransactionLine", "JournalLine"]

/-- `x or ""` on an optional field value. -/
def orEmpty (o : Option String) : String := o.getD ""

/-- The `Header` row of the streaming parser (`saft_stream_parser.py` lines
256–272); note the `CurrencyCode` fallback in the `DefaultCurrencyCode`
cell. -/
def headerRowStream (el : XElem) : List String :=
  [orEmpty (firstTag el ["CompanyName"]),
   orEmpty (firstTag el ["CompanyID"]),
   orEmpty (firstTag el ["FunctionalCurrency", "DefaultCurrencyCode"]),
   orEmpty (firstTag el ["DefaultCurrencyCode", "CurrencyCode"]),
   orEmpty (firstTag el ["FileCreationDateTime", "AuditFileDateCreated", "FileCreationDate"]),
   orEmpty (firstTag el ["AuditFileVersion"]),
   orEmpty (firstTag el ["SelectionStart", "SelectionStartDate"]),
   orEmpty (firstTag el ["SelectionStartDate"]),
   orEmpty (firstTag el ["SelectionEnd", "SelectionEndDate"]),
   orEmpty (firstTag el ["SelectionEndDate"]),
   orEmpty (firstTag el ["StartDate"]),
   orEmpty (firstTag el ["EndDate"]),
   orEmpty (firstTag el ["ProductVersion"]),
   orEmpty (firstTag el ["SoftwareCertificateNumber"])]

/-- The `Header` row of the fallback parser (`saft_parser_pro.py` lines
185–201); its `DefaultCurrencyCode` cell has no `CurrencyCode` fallback. -/
def headerRowPro (el : XElem) : List String :=
  [orEmpty (firstTag el ["CompanyName"]),
   orEmpty (firstTag el ["CompanyID"]),
   orEmpty (firstTag el ["FunctionalCurrency", "DefaultCurrencyCode"]),
   orEmpty (firstTag el ["DefaultCurrencyCode"]),
   orEmpty (firstTag el ["FileCreationDateTime", "AuditFileDateCreated", "FileCreationDate"]),
   orEmpty (firstTag el ["AuditFileVersion"]),
   orEmpty (firstTag el ["SelectionStart", "SelectionStartDate"]),
   orEmpty (firstTag el ["SelectionStartDate"]),
   orEmpty (firstTag el ["SelectionEnd", "SelectionEndDate"]),
   orEmpty (firstTag el ["SelectionEndDate"]),
   orEmpty (firstTag el ["StartDate"]),
   orEmpty (firstTag el ["EndDate"]),
   orEmpty (firstTag el ["ProductVersion"]),
   orEmpty (firstTag el ["SoftwareCertificateNumber"])]

/-- `Account`/`GeneralLedgerAccount` close (identical blocks:
`saft_stream_parser.py` lines 279–305, `saft_parser_pro.py` lines 203–228):
skipped entirely unless an `AccountID`/`GLAccountID` resolves; otherwise a
lookup entry and an `accounts` row are produced. -/
def accountStop (s : SState) (el : XElem) : SState :=
  match firstTag el ["AccountID", "GLAccountID"] with
  | none => s
  | some accId =>
      let accDesc := firstTag el ["AccountDescription", "Description"]
      let accType := firstTag el ["AccountType"]
      let parent := firstTag el ["ParentAccountID", "ParentID"]
      let groupCat := firstTag el ["GroupingCategory"]
      let groupCode := firstTag el ["GroupingCode", "GroupingCategoryCode"]
      let opDr := Dec.orZero (amountOf el "OpeningDebitBalance")
      let opCr := Dec.orZero (amountOf el "OpeningCreditBalance")
      let clDr := Dec.orZero (amountOf el "ClosingDebitBalance")
      let clCr := Dec.orZero (amountOf el "ClosingCreditBalance")
      let taxc := firstTag el ["TaxCode"]
      let taxt := firstTag el ["TaxType"]
      { s with
        look := { s.look with accounts := (accId, ⟨orEmpty accDesc, orEmpty taxc⟩) :: s.look.accounts },
        rows := { s.rows with accounts := s.rows.accounts ++
          [[accId, orEmpty accDesc, orEmpty accType, orEmpty parent,
            orEmpty groupCat, orEmpty groupCode,
            Dec.repr opDr, Dec.repr opCr, Dec.repr clDr, Dec.repr clCr,
            orEmpty taxc, orEmpty taxt]] } }

/-- `TaxTableEntry` close (identical blocks in both parsers). -/
def taxStop (s : SState) (el : XElem) : SState :=
  { s with rows := { s.rows with tax := s.rows.tax ++
      [[orEmpty (firstTag el ["TaxCode"]),
        orEmpty (firstTag el ["StandardTaxCode"]),
        orEmpty (firstTag el ["TaxType"]),
        orEmpty (firstTag el ["TaxPercentage", "Rate"]),
        orEmpty (firstTag el ["TaxCountryRegion", "CountryRegion"]),
        orEmpty (firstTag el ["Description"])]] } }

/-- One `BalanceAccountStructure` descendant of a party element: updates the
control-account dictionary when an `AccountID` resolves, and always appends
an `arap_control_accounts` row. -/
def balanceStructStep (partyType pid : String) (acc : List (String × String) × List (List String))
    (b : XElem) : List (String × String) × List (List String) :=
  let acct := firstTag b ["AccountID"]
  let ctrl := match acct with
    | some a => (pid, a) :: acc.1
    | none => acc.1
  (ctrl, acc.2 ++
    [[partyType, pid, orEmpty acct,
      Dec.repr (Dec.orZero (amountOf b "OpeningDebitBalance")),
      Dec.repr (Dec.orZero (amountOf b "OpeningCreditBalance")),
      Dec.repr (Dec.orZero (amountOf b "ClosingDebitBalance")),
      Dec.repr (Dec.orZero (amountOf b "ClosingCreditBalance"))]])

/-- `Customer` close (identical blocks: `saft_stream_parser.py` lines
323–351, `saft_parser_pro.py` lines 243–269): skipped entirely unless a
`CustomerID`/`ID` resolves; otherwise a lookup entry, a `customers` row and
(for every nested `BalanceAccountStructure`) a control-account link and an
`arap_control_accounts` row are produced. -/
def customerStop (s : SState) (el : XElem) : SState :=
  match firstTag el ["CustomerID", "ID"] with
  | none => s
  | some cid =>
      let name := firstTag el ["CompanyName", "CustomerName", "Name"]
      let vat := orEmpty (firstTag el ["VATNumber", "VATRegistrationNumber"])
      let row := [cid, orEmpty name, vat,
        orEmpty (firstTag el ["Country"]), orEmpty (firstTag el ["City"]),
        orEmpty (firstTag el ["PostalCode"]),
        orEmpty (firstTag el ["Email"]), orEmpty (firstTag el ["Telephone", "MobilePhone"])]
      let structs := el.descendants.filter (fun b => lname b.tag = "BalanceAccountStructure")
      let folded := structs.foldl (balanceStructStep "Customer" cid) (s.look.customerCtrl, s.rows.arap)
      { s with
        look := { s.look with
          customers := (cid, ⟨orEmpty name, vat⟩) :: s.look.customers,
          customerCtrl := folded.1 },
        rows := { s.rows with customers := s.rows.customers ++ [row], arap := folded.2 } }

/-- `Supplier` close (identical blocks: `saft_stream_parser.py` lines
354–382, `saft_parser_pro.py` lines 271–297). -/
def supplierStop (s : SState) (el : XElem) : SState :=
  match firstTag el ["SupplierID", "ID"] with
  | none => s
  | some sid =>
      let name := firstTag el ["CompanyName", "SupplierName", "Name"]
      let vat := orEmpty (firstTag el ["VATNumber", "VATRegistrationNumber"])
      let row := [sid, orEmpty name, vat,
        orEmpty (firstTag el ["Country"]), orEmpty (firstTag el ["City"]),
        orEmpty (firstTag el ["PostalCode"]),
        orEmpty (firstTag el ["Email"]), orEmpty (firstTag el ["Telephone", "MobilePhone"])]
      let structs := el.descendants.filter (fun b => lname b.tag = "BalanceAccountStructure")
      let folded := structs.foldl (balanceStructStep "Supplier" sid) (s.look.supplierCtrl, s.rows.arap)
      { s with
        look := { s.look with
          suppliers := (sid, ⟨orEmpty name, vat⟩) :: s.look.suppliers,
          supplierCtrl := folded.1 },
        rows := { s.rows with suppliers := s.rows.suppliers ++ [row], arap := folded.2 } }

/-- The `gl_totals` part of the `Journal` close (identical in both
parsers). -/
def journalTotalsStop (s : SState) (el : XElem) : SState :=
  let jid := firstTag el ["JournalID", "Journal"]
  let tdr := Dec.orZero (amountOf el "TotalDebit")
  let tcr := Dec.orZero (amountOf el "TotalCredit")
  if jid.isSome || tdr.isTruthy || tcr.isTruthy then
    { s with rows := { s.rows with glTotals := s.rows.glTotals ++
        [[orEmpty jid, Dec.repr tdr, Dec.repr tcr]] } }
  else s

/-- The `journals.csv` part of the `Journal` close (streaming parser only,
lines 390–392). -/
def journalMetaStop (s : SState) (el : XElem) : SState :=
  let jid := firstTag el ["JournalID", "Journal"]
  let jtype := orEmpty (firstTag el ["Type"])
  if jid.isSome then
    { s with rows := { s.rows with journals := s.rows.journals ++ [[orEmpty jid, jtype]] } }
  else s

/-- The `acc_id` fallback block of the line handler (`saft_stream_parser.py`
lines 436–439): the resolved alias, else the customer control account, else
the supplier control account; `""` encodes Python `None`/falsy. -/
def lineAccRaw (look : Lookups) (el : XElem) : String :=
  match firstTag el ["AccountID", "GLAccountID"] with
  | some a => a
  | none =>
      match (firstTag el ["CustomerID", "Customer"]).bind (lookupGet look.customerCtrl) with
      | some ca => ca
      | none =>
          match (firstTag el ["SupplierID", "Supplier", "VendorID", "Vendor"]).bind
              (lookupGet look.supplierCtrl) with
          | some sa => sa
          | none => ""

/-- `if not acc_id: acc_id = "UNDEFINED"` (the sentinel). -/
def lineAccId (look : Lookups) (el : XElem) : String :=
  if lineAccRaw look el = "" then "UNDEFINED" else lineAccRaw look el

/-- `Line`/`TransactionLine`/`JournalLine` close (identical blocks:
`saft_stream_parser.py` lines 420–474, `saft_parser_pro.py` lines 330–392):
with no open voucher the line is skipped; otherwise the voucher totals are
updated and a `transactions` row is emitted, with the `AccountID` falling
back to the customer control account, then the supplier control account,
then the sentinel `"UNDEFINED"`. -/
def lineStop (s : SState) (el : XElem) : SState :=
  match s.cur with
  | none => s
  | some v =>
      let recordId := firstTag el ["RecordID", "LineID"]
      let systemId := firstTag el ["SystemID"]
      let batchId := firstTag el ["BatchID"]
      let docNo := firstTag el ["DocumentNumber", "DocumentNo", "ReferenceNumber"]
      let lineSrc := firstTag el ["SourceDocumentID", "SourceID"]
      let custId := firstTag el ["CustomerID", "Customer"]
      let supId := firstTag el ["SupplierID", "Supplier", "VendorID", "Vendor"]
      let desc := firstTag el ["Description", "Narrative", "LineDescription"]
      let debit := Dec.orZero (amountOf el "DebitAmount")
      let credit := Dec.orZero (amountOf el "CreditAmount")
      let amount := debit.sub credit
      let v2 := { v with debit := v.debit.add debit, credit := v.credit.add credit }
      let accId := lineAccId s.look el
      let amtCur := firstTag el ["AmountCurrency", "ForeignAmount"]
      let exRate := firstTag el ["ExchangeRate"]
      let taxType := firstTag el ["TaxType"]
      let taxCountry := firstTag el ["TaxCountryRegion", "CountryRegion"]
      let taxCode := firstTag el ["TaxCode"]
      let taxPerc := firstTag el ["TaxPercentage", "Rate"]
      let dTax := Dec.orZero (amountOf el "DebitTaxAmount")
      let cTax := Dec.orZero (amountOf el "CreditTaxAmount")
      let taxAmt :=
        match amountOf el "TaxAmount" with
        | some d => if d.man = 0 then dTax.sub cTax else d
        | none => dTax.sub cTax
      let accDesc := match lookupGet s.look.accounts accId with
        | some i => i.desc
        | none => ""
      let custName := match custId with
        | some c => (match lookupGet s.look.customers c with | some p => p.name | none => "")
        | none => ""
      let custVat := match custId with
        | some c => (match lookupGet s.look.customers c with | some p => p.vat | none => "")
        | none => ""
      let supName := match supId with
        | some c => (match lookupGet s.look.suppliers c with | some p => p.name | none => "")
        | none => ""
      let supVat := match supId with
        | some c => (match lookupGet s.look.suppliers c with | some p => p.vat | none => "")
        | none => ""
      let row :=
        [orEmpty recordId, orEmpty v.voucherId, orEmpty v.voucherNo,
         orEmpty v.journalId, orEmpty v.txDate, orEmpty v.postDate,
         orEmpty v.period, orEmpty v.year,
         orEmpty systemId, orEmpty batchId,
         orEmpty docNo, orEmpty lineSrc,
         accId, accDesc,
         orEmpty custId, custName, custVat,
         orEmpty supId, supName, supVat,
         orEmpty desc, Dec.repr debit, Dec.repr credit, Dec.repr amount,
         orEmpty v.currency, orEmpty amtCur, orEmpty exRate,
         taxType.getD "", orEmpty taxCountry, orEmpty taxCode,
         orEmpty taxPerc,
         Dec.repr dTax, Dec.repr cTax, Dec.repr taxAmt,
         "True", "GL"]
      { s with
        cur := some v2,
        seen := seenInsert s.seen accId,
        rows := { s.rows with transactions := s.rows.transactions ++ [row] } }

/-- `Transaction` start (identical in both parsers): allocate a fresh
accumulator. -/
def txStart (s : SState) (el : XElem) : SState :=
  { s with cur := some (voucherOf el) }

/-- `Transaction` close (identical blocks: `saft_stream_parser.py` lines
524–542, `saft_parser_pro.py` lines 437–454): when a voucher is open, derive
`Balanced` from the running totals, emit the voucher row and clear the
accumulator. -/
def txStop (s : SState) (_el : XElem) : SState :=
  match s.cur with
  | none => s
  | some v =>
      let balanced : Bool := decide (Dec.le (Dec.copyAbs (v.debit.sub v.credit)) ⟨5, 3⟩)
      let row :=
        [orEmpty v.voucherId, orEmpty v.voucherNo,
         orEmpty v.txDate, orEmpty v.postDate,
         orEmpty v.period, orEmpty v.year,
         orEmpty v.sourceDoc, orEmpty v.journalId,
         orEmpty v.currency,
         orEmpty v.vtype, orEmpty v.vdesc,
         orEmpty v.modDate,
         Dec.repr v.debit, Dec.repr v.credit,
         if balanced then "Y" else "N"]
      { s with cur := none,
               rows := { s.rows with vouchers := s.rows.vouchers ++ [row] } }

/-- `if cond then g s else s` — one conditional handler block of the event
loop. -/
def condApply (c : Prop) [Decidable c] (g : SState → SState) (s : SState) : SState :=
  if c then g s else s

/-- Appends a header row built by `hdr` (the parsers differ only in the
`hdr` used). -/
def headerStop (hdr : XElem → List String) (s : SState) (el : XElem) : SState :=
  { s with rows := { s.rows with header := s.rows.header ++ [hdr el] } }

/-- The unknown-element census (`saft_stream_parser.py` lines 241–243). -/
def censusStop (s : SState) (tag : String) : SState :=
  { s with unknown := bumpCount s.unknown tag }

/-- One event of the streaming parser loop (`saft_stream_parser.py` lines
234–542), without the trailing progress/cancellation tick (which lives in
`streamRun`): the unknown-element census first, then the per-tag handler
blocks in source order. -/
def streamStep (s : SState) (ev : Evt) : SState :=
  match ev with
  | .start el => condApply (lname el.tag = "Transaction") (fun s2 => txStart s2 el) s
  | .stop el =>
      let tag := lname el.tag
      let s1 := condApply (tag ∉ KNOWN ∧ tag ∉ KNOWN_CONTAINERS) (fun s2 => censusStop s2 tag) s
      let s2 := condApply (tag = "Header") (fun s2 => headerStop headerRowStream s2 el) s1
      let s3 := condApply (tag = "Account" ∨ tag = "GeneralLedgerAccount") (fun s2 => accountStop s2 el) s2
      let s4 := condApply (tag = "TaxTableEntry") (fun s2 => taxStop s2 el) s3
      let s5 := condApply (tag = "Customer") (fun s2 => customerStop s2 el) s4
      let s6 := condApply (tag = "Supplier") (fun s2 => supplierStop s2 el) s5
      let s7 := condApply (tag = "Journal") (fun s2 => journalTotalsStop (journalMetaStop s2 el) el) s6
      let s8 := condApply (tag ∈ lineTags) (fun s2 => lineStop s2 el) s7
      condApply (tag = "Transaction") (fun s2 => txStop s2 el) s8

/-- One event of the fallback parser loop (`saft_parser_pro.py` lines
175–454): the same handlers in the same order, but no unknown-element
census, no `journals.csv`, and the fallback variant of the header row. -/
def proStep (s : SState) (ev : Evt) : SState :=
  match ev with
  | .start el => condApply (lname el.tag = "Transaction") (fun s2 => txStart s2 el) s
  | .stop el =>
      let tag := lname el.tag
      let s2 := condApply (tag = "Header") (fun s2 => headerStop headerRowPro s2 el) s
      let s3 := condApply (tag = "Account" ∨ tag = "GeneralLedgerAccount") (fun s2 => accountStop s2 el) s2
      let s4 := condApply (tag = "TaxTableEntry") (fun s2 => taxStop s2 el) s3
      let s5 := condApply (tag = "Customer") (fun s2 => customerStop s2 el) s4
      let s6 := condApply (tag = "Supplier") (fun s2 => supplierStop s2 el) s5
      let s7 := condApply (tag = "Journal") (fun s2 => journalTotalsStop s2 el) s6
      let s8 := condApply (tag ∈ lineTags) (fun s2 => lineStop s2 el) s7
      condApply (tag = "Transaction") (fun s2 => txStop s2 el) s8

/-- The streaming parser event loop with its progress/cancellation tick
(`saft_stream_parser.py` lines 544–551): after each end event the event
counter is bumped; every `pe` end events the callback is consulted, and
if it returns the stop value the loop breaks with the run marked
cancelled.  `cb = none` is a run without a progress callback; `f n = true`
models the callback returning the stop value `False` at event count `n`. -/
def streamRun (cb : Option (Nat → Bool)) (pe : Nat) : SState → List Evt → SState
  | s, [] => s
  | s, ev :: rest =>
      let s1 := streamStep s ev
      match ev with
      | .start _ => streamRun cb pe s1 rest
      | .stop _ =>
          let s2 := { s1 with events := s1.events + 1 }
          match cb with
          | none => streamRun cb pe s2 rest
          | some f =>
              if s2.events % pe = 0 ∧ f s2.events = true then { s2 with cancelled := true }
              else streamRun cb pe s2 rest

/-- The fallback parser event loop: a plain fold (no progress, no
cancellation). -/
def proRun (s : SState) (evts : List Evt) : SState := evts.foldl proStep s

/-- A parse event paired with the chain of open ancestor elements at the
moment it is delivered, innermost first: `anc.head?` is `el.getparent()`.
Only the `Analysis` and `Invoice` close handlers read this chain; every
other handler ignores it. -/
inductive CEvt where
  | start (el : XElem) (anc : List XElem)
  | stop (el : XElem) (anc : List XElem)

mutual

/-- `XElem.events` enriched with each event's ancestor chain: inside a
node, the ancestor chain grows by that node. -/
def XElem.eventsC (anc : List XElem) : XElem → List CEvt
  | .node t a x cs =>
      CEvt.start (.node t a x cs) anc ::
        (XElem.eventsListC (XElem.node t a x cs :: anc) cs ++
          [CEvt.stop (.node t a x cs) anc])

/-- The concatenated contextual event streams of a forest of sibling
subtrees. -/
def XElem.eventsListC (anc : List XElem) : List XElem → List CEvt
  | [] => []
  | c :: cs => XElem.eventsC anc c ++ XElem.eventsListC anc cs

end

/-- `Analysis` close (identical blocks: `saft_stream_parser.py` lines
477–493, `saft_parser_pro.py` lines 394–408): walk `getparent()` upwards to
the nearest line-tagged ancestor and take its `RecordID`/`LineID`; the
amount cell is `AnalysisAmount` if present (an identity check against
`None`, so a parsed zero is kept), else debit minus credit, and a zero
amount prints as `Decimal("0")` through the `or` default in the f-string.
The row is appended to `analysis_lines.csv`; no lookup state is read or
written. -/
def analysisStop (s : SState) (el : XElem) (anc : List XElem) : SState :=
  let parentLine := anc.find? (fun q => decide (lname q.tag ∈ lineTags))
  let recId : Option String :=
    match parentLine with
    | some q => firstTag q ["RecordID", "LineID"]
    | none => none
  let aDeb := Dec.orZero (amountOf el "DebitAnalysisAmount")
  let aCred := Dec.orZero (amountOf el "CreditAnalysisAmount")
  let aAmt : Dec :=
    match amountOf el "AnalysisAmount" with
    | some d => d
    | none => aDeb.sub aCred
  let row :=
    [orEmpty recId, orEmpty (firstTag el ["AnalysisType"]),
     orEmpty (firstTag el ["AnalysisID"]),
     Dec.repr (if aAmt.isTruthy then aAmt else Dec.zero)]
  { s with rows := { s.rows with analysis := s.rows.analysis ++ [row] } }

/-- `Invoice` close (identical blocks: `saft_stream_parser.py` lines
496–521, `saft_parser_pro.py` lines 410–435): the immediate parent's local
name selects the sink — `SalesInvoices`, `PurchaseInvoices`, or neither
(no row).  When the party ID resolves, the name and VAT cells come from the
customers/suppliers dictionaries (empty strings for an unknown ID);
without an ID the name falls back to the inline `CustomerName` /
`SupplierName` and the VAT cell is empty.  Cells follow the fixed
`DictWriter` schema order of `sales_invoices.csv` / `purchase_invoices.csv`. -/
def invoiceStop (s : SState) (el : XElem) (anc : List XElem) : SState :=
  let pname : String :=
    match anc.head? with
    | some q => lname q.tag
    | none => ""
  let datesPart :=
    [orEmpty (firstTag el ["InvoiceNo", "InvoiceNumber"]),
     orEmpty (firstTag el ["InvoiceDate"]),
     orEmpty (firstTag el ["TaxPointDate"]),
     orEmpty (firstTag el ["GLPostingDate"])]
  let totalsPart :=
    [orEmpty (firstTag el ["CurrencyCode", "TransactionCurrency"]),
     orEmpty (firstTag el ["NetTotal", "DocumentNetTotal"]),
     orEmpty (firstTag el ["TaxPayable", "DocumentTaxPayable"]),
     orEmpty (firstTag el ["GrossTotal", "DocumentGrossTotal"]),
     orEmpty (firstTag el ["SourceID"]),
     orEmpty (firstTag el ["DocumentNumber", "DocumentNo", "ReferenceNumber"]),
     orEmpty (firstTag el ["DueDate"])]
  if pname = "SalesInvoices" then
    let cid := firstTag el ["CustomerID"]
    let cname : String :=
      match cid with
      | some c =>
          match lookupGet s.look.customers c with
          | some info => info.name
          | none => ""
      | none => orEmpty (firstTag el ["CustomerName"])
    let cvat : String :=
      match cid with
      | some c =>
          match lookupGet s.look.customers c with
          | some info => info.vat
          | none => ""
      | none => ""
    let row := datesPart ++ ([orEmpty cid, cname, cvat] ++ totalsPart)
    { s with rows := { s.rows with salesInv := s.rows.salesInv ++ [row] } }
  else if pname = "PurchaseInvoices" then
    let sid := firstTag el ["SupplierID"]
    let sname : String :=
      match sid with
      | some c =>
          match lookupGet s.look.suppliers c with
          | some info => info.name
          | none => ""
      | none => orEmpty (firstTag el ["SupplierName"])
    let svat : String :=
      match sid with
      | some c =>
          match lookupGet s.look.suppliers c with
          | some info => info.vat
          | none => ""
      | none => ""
    let row := datesPart ++ ([orEmpty sid, sname, svat] ++ totalsPart)
    { s with rows := { s.rows with purchInv := s.rows.purchInv ++ [row] } }
  else s

/-- One contextual event of the streaming parser loop: the ancestor-free
handler blocks (`streamStep`), followed by the `Analysis` and `Invoice`
blocks with the event's ancestor chain.  In the source the two blocks sit
between the line handler and the `Transaction` close
(`saft_stream_parser.py` lines 477–521); since every handler block of the
loop is guarded by a distinct local name of the same closing element, at
most one block beyond the census fires per event, and appending the two
blocks after the `Transaction` block is order-equivalent to the source
order. -/
def streamStepC (s : SState) (ev : CEvt) : SState :=
  match ev with
  | .start el _ => streamStep s (Evt.start el)
  | .stop el anc =>
      let s1 := streamStep s (Evt.stop el)
      let s2 := condApply (lname el.tag = "Analysis") (fun s3 => analysisStop s3 el anc) s1
      condApply (lname el.tag = "Invoice") (fun s3 => invoiceStop s3 el anc) s2

/-- One contextual event of the fallback parser loop
(`saft_parser_pro.py` lines 175–454): `proStep` followed by the identical
`Analysis` and `Invoice` blocks, order-equivalent to the source order for
the same reason as in `streamStepC`. -/
def proStepC (s : SState) (ev : CEvt) : SState :=
  match ev with
  | .start el _ => proStep s (Evt.start el)
  | .stop el anc =>
      let s1 := proStep s (Evt.stop el)
      let s2 := condApply (lname el.tag = "Analysis") (fun s3 => analysisStop s3 el anc) s1
      condApply (lname el.tag = "Invoice") (fun s3 => invoiceStop s3 el anc) s2

/-- The streaming parser event loop over contextual events, with the same
progress/cancellation tick as `streamRun`. -/
def streamRunC (cb : Option (Nat → Bool)) (pe : Nat) : SState → List CEvt → SState
  | s, [] => s
  | s, ev :: rest =>
      let s1 := streamStepC s ev
      match ev with
      | .start _ _ => streamRunC cb pe s1 rest
      | .stop _ _ =>
          let s2 := { s1 with events := s1.events + 1 }
          match cb with
          | none => streamRunC cb pe s2 rest
          | some f =>
              if s2.events % pe = 0 ∧ f s2.events = true then { s2 with cancelled := true }
              else streamRunC cb pe s2 rest

/-- The fallback parser event loop over contextual events: a plain fold. -/
def proRunC (s : SState) (evts : List CEvt) : SState := evts.foldl proStepC s

/-- Ascending insertion into a sorted string list (Python `sorted`). -/
def insertSorted (a : String) : List String → List String
  | [] => [a]
  | b :: t => if b < a then b :: insertSorted a t else a :: b :: t

/-- Python `sorted` on strings (code-point lexicographic, ascending). -/
def sortStrings (l : List String) : List String := l.foldr insertSorted []

/-- The missing-accounts finding computed after either parsing run
(`saft_stream_parser.py` line 554, `saft_parser_pro.py` line 457):
`[acc for acc in sorted(seen_accounts_in_lines) if acc and acc not in accounts]`. -/
def missingOf (s : SState) : List String :=
  (sortStrings s.seen).filter (fun a => a ≠ "" && (lookupGet s.look.accounts a).isNone)

/-- `missing_accounts.csv` is written only when the finding is non-empty. -/
def missingArtifact (s : SState) : Option (List String) :=
  let m := missingOf s
  if m.isEmpty then none else some m

/-- One CSV field under `csv.QUOTE_MINIMAL`: quoted (with doubled inner
quotes) exactly when it contains the delimiter, the quote character, or a
character of the writer's line terminator (CPython `_csv.c` also checks the
escape character, which is unset here). -/
def csvField (term : String) (s : String) : String :=
  if s.data.any (fun c => c = ',' || c = '"' || term.data.contains c) then
    "\"" ++ (⟨s.data.flatMap (fun c => if c = '"' then ['"', '"'] else [c])⟩ : String) ++ "\""
  else s

/-- One CSV record with the writer terminator appended. -/
def csvLine (term : String) (cells : List String) : String :=
  String.intercalate "," (cells.map (csvField term)) ++ term

/-- A whole sink file: the schema header row followed by the data rows.
The streaming parser opens its writers with `lineterminator="\n"`
(`saft_stream_parser.py` line 98); the fallback parser uses the `csv`
module default `"\r\n"` (`saft_parser_pro.py` line 98). -/
def csvTable (term : String) (hdr : List String) (rows : List (List String)) : String :=
  String.join ((hdr :: rows).map (csvLine term))

/-- The fixed schema of the `customers.csv` sink (identical in both
parsers). -/
def customersHeader : List String :=
  ["CustomerID", "Name", "VATNumber", "Country", "City", "PostalCode", "Email", "Telephone"]

/-- The fixed schema of the `header.csv` sink (identical in both parsers). -/
def headerHeader : List String :=
  ["CompanyName", "CompanyID", "FunctionalCurrency", "DefaultCurrencyCode",
   "FileCreationDate", "AuditFileVersion", "SelectionStart", "SelectionStartDate",
   "SelectionEnd", "SelectionEndDate", "StartDate", "EndDate", "ProductVersion",
   "SoftwareCertificateNumber"]



/-- Tags that trigger a handler in either parser loop (the `Analysis` and
`Invoice` handlers write only to sinks outside the modelled state, but are
listed so that "plain" subtrees trigger no handler at all). -/
def handlerTags : List String :=
  ["Header", "Account", "GeneralLedgerAccount", "TaxTableEntry", "Customer", "Supplier",
   "Journal", "Transaction", "Line", "TransactionLine", "JournalLine", "Analysis", "Invoice"]

/-- An element none of whose nodes (itself included) triggers a handler. -/
def plainEl (e : XElem) : Prop :=
  ∀ x ∈ e.iterAll, lname x.tag ∉ handlerTags

instance : Decidable (plainEl e) := by unfold plainEl; infer_instance

/-- A transaction line: line-tagged, with no handler-triggering tag below
it. -/
def lineOK (e : XElem) : Prop :=
  lname e.tag ∈ lineTags ∧ ∀ x ∈ e.descendants, lname x.tag ∉ handlerTags

instance : Decidable (lineOK e) := by unfold lineOK; infer_instance

/-- The line children of a transaction element, in document order. -/
def linesOf (tx : XElem) : List XElem :=
  tx.children.filter (fun c => decide (lname c.tag ∈ lineTags))

/-- The signed amount the parsers derive for one line:
`debit - credit` after each side's `or Decimal("0")` default, as a rational. -/
def lineSigned (l : XElem) : ℚ :=
  (Dec.orZero (amountOf l "DebitAmount")).toRat - (Dec.orZero (amountOf l "CreditAmount")).toRat

/-- Helper to build test elements without attributes. -/
def mkEl (t : String) (txt : Option String) (cs : List XElem) : XElem :=
  .node t [] txt cs

/-- `<Tag>value</Tag>`. -/
def mkLeaf (t v : String) : XElem := mkEl t (some v) []

/-- §8 of the spec, signed-only scenario: a line citing account `2410` with
no debit/credit pair, no indicator, and `<Amount>-500,00</Amount>`. -/
def line2410 : XElem :=
  mkEl "Line" none [mkLeaf "RecordID" "7", mkLeaf "AccountID" "2410", mkLeaf "Amount" "-500,00"]

/-- A transaction holding only `line2410`. -/
def tx2410 : XElem :=
  mkEl "Transaction" none [mkLeaf "TransactionID" "T9", line2410]

/-- A line with no account, customer or supplier reference at all. -/
def lineNoAccount : XElem :=
  mkEl "Line" none [mkLeaf "RecordID" "1", mkLeaf "DebitAmount" "10.00"]

/-- A document whose only line resolves no account: the sentinel
`"UNDEFINED"` enters `seen_accounts_in_lines`. -/
def docNoAccount : XElem :=
  mkEl "AuditFile" none
    [mkEl "GeneralLedgerEntries" none
      [mkEl "Journal" none
        [mkLeaf "JournalID" "J1",
         mkEl "Transaction" none [mkLeaf "TransactionID" "T1", lineNoAccount]]]]

/-- An orphan line: well-formed in itself, but closing while no voucher is
open. -/
def orphanLine : XElem :=
  mkEl "Line" none [mkLeaf "RecordID" "9", mkLeaf "AccountID" "3000", mkLeaf "DebitAmount" "5.00"]

/-- A declared account element, used to witness that traversal continues
after an orphan line. -/
def accountEl3000 : XElem :=
  mkEl "Account" none [mkLeaf "AccountID" "3000", mkLeaf "AccountDescription" "Salg"]

/-- A small conforming document on which the two parsers' sink files are
compared byte for byte: it has a header whose currency is only given as
`CurrencyCode`, one declared account, one customer, and one balanced
two-line transaction. -/
def docSmall : XElem :=
  mkEl "AuditFile" none
    [mkEl "Header" none [mkLeaf "CompanyName" "Acme AS", mkLeaf "CurrencyCode" "NOK"],
     mkEl "MasterFiles" none
       [mkEl "GeneralLedgerAccounts" none
          [mkEl "Account" none
             [mkLeaf "AccountID" "1500", mkLeaf "AccountDescription" "Kundefordringer"]],
        mkEl "Customers" none
          [mkEl "Customer" none
             [mkLeaf "CustomerID" "C1", mkLeaf "Name" "Kari Nordmann",
              mkEl "BalanceAccountStructure" none [mkLeaf "AccountID" "1500"]]]],
     mkEl "GeneralLedgerEntries" none
       [mkEl "Journal" none
          [mkLeaf "JournalID" "J1", mkLeaf "Type" "GL",
           mkEl "Transaction" none
             [mkLeaf "TransactionID" "T1",
              mkEl "Line" none
                [mkLeaf "RecordID" "1", mkLeaf "AccountID" "1500", mkLeaf "DebitAmount" "100,00"],
              mkEl "Line" none
                [mkLeaf "RecordID" "2", mkLeaf "AccountID" "1920", mkLeaf "CreditAmount" "100.00"]]]]]

/-- The two-line balanced transaction used as the concrete witness for the
voucher-balance theorem. -/
def txBalanced : XElem :=
  mkEl "Transaction" none
    [mkLeaf "TransactionID" "T1",
     mkEl "Line" none
       [mkLeaf "RecordID" "1", mkLeaf "AccountID" "1500", mkLeaf "DebitAmount" "100,00"],
     mkEl "Line" none
       [mkLeaf "RecordID" "2", mkLeaf "AccountID" "1920", mkLeaf "CreditAmount" "100.00"]]

/-- The missing-accounts finding as the specification words it
(`spec.md` §4.8): seen minus declared, "excluding the sentinel value".
Stated from the spec only, for comparison against `missingOf`. -/
def specMissingOf (s : SState) : List String :=
  (sortStrings s.seen).filter
    (fun a => a ≠ "" && a ≠ "UNDEFINED" && (lookupGet s.look.accounts a).isNone)



/-- The components the two parsers are compared on: the shared lookup
state and every shared entity sink except the header sink (whose
`DefaultCurrencyCode` cell resolves differently, see `headerRowStream` and
`headerRowPro`). -/
def sharedRel (s p : SState) : Prop :=
  s.look = p.look ∧ s.seen = p.seen ∧ s.cur = p.cur ∧
  s.rows.accounts = p.rows.accounts ∧ s.rows.tax = p.rows.tax ∧
  s.rows.customers = p.rows.customers ∧ s.rows.suppliers = p.rows.suppliers ∧
  s.rows.arap = p.rows.arap ∧ s.rows.glTotals = p.rows.glTotals ∧
  s.rows.vouchers = p.rows.vouchers ∧ s.rows.transactions = p.rows.transactions

/-- `sharedRel` extended with the three ancestor-driven sinks, for the
contextual loops. -/
def sharedRelC (s p : SState) : Prop :=
  sharedRel s p ∧ s.rows.analysis = p.rows.analysis ∧
  s.rows.salesInv = p.rows.salesInv ∧ s.rows.purchInv = p.rows.purchInv

/-- The three ancestor-driven sinks agree between two states — every
ancestor-free handler block leaves them untouched. -/
def auxKeep (s2 s : SState) : Prop :=
  s2.rows.analysis = s.rows.analysis ∧ s2.rows.salesInv = s.rows.salesInv ∧
  s2.rows.purchInv = s.rows.purchInv

/-- The AccountID fallback chain of the line handler as the claim words it:
the resolved `AccountID`/`GLAccountID`, else the control account recorded
for the line's customer, else the one recorded for its supplier, else the
sentinel. -/
def accountFallback (look : Lookups) (el : XElem) : String :=
  match firstTag el ["AccountID", "GLAccountID"] with
  | some a => a
  | none =>
      match (firstTag el ["CustomerID", "Customer"]).bind (lookupGet look.customerCtrl) with
      | some ca => ca
      | none =>
          match (firstTag el ["SupplierID", "Supplier", "VendorID", "Vendor"]).bind
              (lookupGet look.supplierCtrl) with
          | some sa => sa
          | none => "UNDEFINED"

/-- Both control-account dictionaries hold only non-empty account values
(they are only ever assigned from a non-empty resolved `AccountID`). -/
def ctrlOk (look : Lookups) : Prop :=
  (∀ q ∈ look.customerCtrl, q.2 ≠ "") ∧ (∀ q ∈ look.supplierCtrl, q.2 ≠ "")

instance : Decidable (ctrlOk look) := by unfold ctrlOk; infer_instance

/-- Every row of the accounts, customers and suppliers sinks has a
non-empty ID cell. -/
def idRowsOk (s : SState) : Prop :=
  (∀ r ∈ s.rows.accounts, r.getD 0 "" ≠ "") ∧
  (∀ r ∈ s.rows.customers, r.getD 0 "" ≠ "") ∧
  (∀ r ∈ s.rows.suppliers, r.getD 0 "" ≠ "")

/-- The state components a neutral (handler-free) event leaves unchanged:
everything except the census and the event counter. -/
def keepState (s s2 : SState) : Prop :=
  s2.look = s.look ∧ s2.cur = s.cur ∧ s2.rows = s.rows ∧ s2.seen = s.seen ∧
  s2.cancelled = s.cancelled

/-- An event that triggers no handler: a start of anything but
`Transaction`, or a close of a tag outside the handler set. -/
def neutralEvt (ev : Evt) : Prop :=
  match ev with
  | .start el => lname el.tag ≠ "Transaction"
  | .stop el => lname el.tag ∉ handlerTags

/-!
## Helper lemmas
-/

theorem dropWhile_eq_self_of {α : Type} {p : α → Bool} {l : List α}
    (h : ∀ c ∈ l, p c = false) : l.dropWhile p = l := by
  cases l with
  | nil => rfl
  | cons a t => simp [List.dropWhile_cons, h a (List.mem_cons_self a t)]

theorem pyStrip_eq_self {l : List Char} (h : ∀ c ∈ l, isPySpace c = false) :
    pyStrip l = l := by
  unfold pyStrip
  rw [dropWhile_eq_self_of h, dropWhile_eq_self_of, List.reverse_reverse]
  intro c hc
  exact h c (List.mem_reverse.mp hc)

theorem dropWhile_head_false {α : Type} {p : α → Bool} :
    ∀ {l t : List α} {c : α}, l.dropWhile p = c :: t → p c = false := by
  intro l
  induction l with
  | nil => intro t c h; simp [List.dropWhile] at h
  | cons a l ih =>
      intro t c h
      rw [List.dropWhile_cons] at h
      by_cases hp : p a = true
      · rw [if_pos hp] at h; exact ih h
      · rw [if_neg hp] at h
        injection h with h1 _
        subst h1
        exact Bool.eq_false_iff.mpr hp

theorem mem_of_mem_dropWhile {α : Type} {p : α → Bool} {l : List α} {x : α}
    (h : x ∈ l.dropWhile p) : x ∈ l :=
  (List.dropWhile_sublist p).mem h

theorem ne_of_isDigit {c : Char} (h : c.isDigit = true) (d : Char)
    (hd : d.isDigit = false) : c ≠ d := by
  intro e
  subst e
  rw [h] at hd
  cases hd

theorem isDigit_not_pySpace {c : Char} (h : c.isDigit = true) : isPySpace c = false := by
  unfold isPySpace
  simp only [Bool.or_eq_false_iff, decide_eq_false_iff_not]
  exact ⟨⟨⟨⟨⟨ne_of_isDigit h ' ' (by decide), ne_of_isDigit h '\t' (by decide)⟩,
    ne_of_isDigit h '\n' (by decide)⟩, ne_of_isDigit h '\r' (by decide)⟩,
    ne_of_isDigit h '\x0b' (by decide)⟩, ne_of_isDigit h '\x0c' (by decide)⟩

/-!
## C8 — idempotence of `norm_acc`
-/

theorem normAcc_of_digits {t : List Char} (hne : t ≠ [])
    (hdig : ∀ c ∈ t, c.isDigit = true) (hhead : ∀ t2 c, t = c :: t2 → c ≠ '0') :
    normAcc ⟨t⟩ = ⟨t⟩ := by
  unfold normAcc
  have hdata : (⟨t⟩ : String).data = t := rfl
  rw [hdata, pyStrip_eq_self (fun c hc => isDigit_not_pySpace (hdig c hc)),
    List.filter_eq_self.mpr hdig]
  cases t with
  | nil => exact absurd rfl hne
  | cons c t2 =>
      have hc : c ≠ '0' := hhead t2 c rfl
      simp [List.dropWhile_cons, hc]

/-- C8.  The claim holds: AccountID canonicalization (`norm_acc` in
`src/parsers/common.py`) is idempotent — stripping non-digits, stripping
leading zeros, and mapping empty and all-zero inputs to `""` and `"0"`
respectively, reaches a fixed point after one application. -/
theorem norm_acc_idempotent (x : String) : normAcc (normAcc x) = normAcc x := by
  have hshape : normAcc x = "" ∨ normAcc x = "0" ∨
      (∃ t, normAcc x = ⟨t⟩ ∧ t ≠ [] ∧ (∀ c ∈ t, c.isDigit = true) ∧
        (∀ t2 c, t = c :: t2 → c ≠ '0')) := by
    unfold normAcc
    by_cases h1 : ((pyStrip x.data).filter Char.isDigit).isEmpty = true
    · left; simp [h1]
    · rw [if_neg h1]
      by_cases h2 : (((pyStrip x.data).filter Char.isDigit).dropWhile (fun c => c = '0')).isEmpty = true
      · right; left; simp [h2]
      · right; right
        refine ⟨_, by rw [if_neg h2], ?_, ?_, ?_⟩
        · intro he; rw [he] at h2; exact h2 rfl
        · intro c hc
          have := mem_of_mem_dropWhile hc
          exact List.of_mem_filter this
        · intro t2 c hc
          have := dropWhile_head_false hc
          simpa using this
  rcases hshape with h | h | ⟨t, h, hne, hdig, hhead⟩
  · rw [h]; decide
  · rw [h]; decide
  · rw [h]; exact normAcc_of_digits hne hdig hhead

/-!
## C2 — amount normalization when both separators occur
-/

/-- C2, counterexample.  The claim says the right-most of `,` and `.` is
the decimal separator, so `'1.234,56'` should parse to `1234.56`; the code
(`_norm_amount_str`) instead removes every comma whenever both characters
occur, so `'1.234,56'` parses to `1.23456`. -/
theorem norm_amount_rightmost_refuted :
    toDec (some "1.234,56") = some ⟨123456, 5⟩ ∧
    (toDec (some "1.234,56")).map Dec.toRat ≠ some ((123456 : ℚ) / 100) := by
  have h : toDec (some "1.234,56") = some ⟨123456, 5⟩ := by decide
  refine ⟨h, ?_⟩
  rw [h]
  intro hh
  rw [Option.map_some'] at hh
  have hv := Option.some.inj hh
  norm_num [Dec.toRat] at hv


theorem takeWhile_append_of_all {α : Type} {p : α → Bool} {l r : List α}
    (h : ∀ x ∈ l, p x = true) : (l ++ r).takeWhile p = l ++ r.takeWhile p := by
  induction l with
  | nil => simp
  | cons a t ih =>
      simp [List.takeWhile_cons, h a (List.mem_cons_self a t),
        ih (fun x hx => h x (List.mem_cons_of_mem a hx))]

theorem dropWhile_append_of_all {α : Type} {p : α → Bool} {l r : List α}
    (h : ∀ x ∈ l, p x = true) : (l ++ r).dropWhile p = r.dropWhile p := by
  induction l with
  | nil => simp
  | cons a t ih =>
      simp [List.dropWhile_cons, h a (List.mem_cons_self a t),
        ih (fun x hx => h x (List.mem_cons_of_mem a hx))]

theorem dropWhile_eq_nil_of_all {α : Type} {p : α → Bool} {l : List α}
    (h : ∀ x ∈ l, p x = true) : l.dropWhile p = [] := by
  have := dropWhile_append_of_all (r := ([] : List α)) h
  simpa using this

theorem takeWhile_eq_self_of_all {α : Type} {p : α → Bool} {l : List α}
    (h : ∀ x ∈ l, p x = true) : l.takeWhile p = l := by
  have := takeWhile_append_of_all (r := ([] : List α)) h
  simpa using this

/-- C2, amended.  What `_norm_amount_str` actually does when both `,` and
`.` occur in the raw amount: every comma is removed (regardless of which
separator is right-most) and the remaining text is parsed with `.` as the
decimal point.  Hence a comma-grouped string `a,b.c` (digit groups `a`, `b`,
fraction `c`) parses to the intended value `(a++b).c`, while a
period-grouped comma-decimal string such as `'1.234,56'` parses with the
period as the decimal point (see the counterexample). -/
theorem norm_amount_both_seps_drops_commas (a b c : List Char)
    (ha : ∀ x ∈ a, x.isDigit = true) (hb : ∀ x ∈ b, x.isDigit = true)
    (hc : ∀ x ∈ c, x.isDigit = true) (hne : a ≠ []) :
    toDec (some ⟨a ++ ',' :: (b ++ '.' :: c)⟩) =
      some ⟨(natOfDigits (a ++ b) : Int) * 10 ^ c.length + natOfDigits c, c.length⟩ := by
  classical
  set cs : List Char := a ++ ',' :: (b ++ '.' :: c) with hcs
  have hmem : ∀ x ∈ cs, x.isDigit = true ∨ x = ',' ∨ x = '.' := by
    intro x hx
    rw [hcs] at hx
    rcases List.mem_append.mp hx with h1 | h2
    · exact Or.inl (ha x h1)
    · rcases List.mem_cons.mp h2 with h3 | h4
      · exact Or.inr (Or.inl h3)
      · rcases List.mem_append.mp h4 with h5 | h6
        · exact Or.inl (hb x h5)
        · rcases List.mem_cons.mp h6 with h7 | h8
          · exact Or.inr (Or.inr h7)
          · exact Or.inl (hc x h8)
  have hnospace : ∀ x ∈ cs, isPySpace x = false := by
    intro x hx
    rcases hmem x hx with hd | rfl | rfl
    · exact isDigit_not_pySpace hd
    · decide
    · decide
  have hnonbsp : cs.filter (fun ch => decide (ch ≠ ' ')) = cs := by
    apply List.filter_eq_self.mpr
    intro x hx
    simp only [decide_eq_true_eq]
    rcases hmem x hx with hd | rfl | rfl
    · exact ne_of_isDigit hd ' ' (by decide)
    · decide
    · decide
  have hstr : (⟨cs⟩ : String) ≠ "" := by
    intro hh
    have h0 : cs = [] := by
      have := congrArg String.data hh
      simpa using this
    rw [hcs] at h0
    exact hne (List.append_eq_nil.mp h0).1
  have hfiltc : cs.filter (fun ch => decide (ch ≠ ',')) = a ++ (b ++ '.' :: c) := by
    rw [hcs, List.filter_append, List.filter_cons, List.filter_append, List.filter_cons]
    have fa : a.filter (fun ch => decide (ch ≠ ',')) = a :=
      List.filter_eq_self.mpr (fun x hx => by
        simp only [decide_eq_true_eq]
        exact ne_of_isDigit (ha x hx) ',' (by decide))
    have fb : b.filter (fun ch => decide (ch ≠ ',')) = b :=
      List.filter_eq_self.mpr (fun x hx => by
        simp only [decide_eq_true_eq]
        exact ne_of_isDigit (hb x hx) ',' (by decide))
    have fc : c.filter (fun ch => decide (ch ≠ ',')) = c :=
      List.filter_eq_self.mpr (fun x hx => by
        simp only [decide_eq_true_eq]
        exact ne_of_isDigit (hc x hx) ',' (by decide))
    rw [fa, fb, fc]
    simp
  have hnorm : normAmountChars cs = a ++ (b ++ '.' :: c) := by
    unfold normAmountChars normAmountSeps
    rw [hnonbsp, pyStrip_eq_self hnospace]
    have hcomma : cs.contains ',' = true :=
      List.elem_eq_true_of_mem (by rw [hcs]; exact List.mem_append.mpr (Or.inr (List.mem_cons_self _ _)))
    have hdot : cs.contains '.' = true :=
      List.elem_eq_true_of_mem (by
        rw [hcs]
        exact List.mem_append.mpr (Or.inr (List.mem_cons_of_mem _
          (List.mem_append.mpr (Or.inr (List.mem_cons_self _ _))))))
    rw [hcomma, hdot]
    simp only [Bool.and_self, if_true, hfiltc]
    apply List.filter_eq_self.mpr
    intro x hx
    have hx2 : x ∈ cs := by
      rw [hcs]
      rcases List.mem_append.mp hx with h1 | h2
      · exact List.mem_append.mpr (Or.inl h1)
      · exact List.mem_append.mpr (Or.inr (List.mem_cons_of_mem _ h2))
    simp only [decide_eq_true_eq]
    rcases hmem x hx2 with hd | rfl | rfl
    · exact ne_of_isDigit hd ' ' (by decide)
    · decide
    · decide
  have hd : ∀ x ∈ a ++ b, x.isDigit = true := by
    intro x hx
    rcases List.mem_append.mp hx with h1 | h2
    · exact ha x h1
    · exact hb x h2
  show (if (⟨cs⟩ : String) = "" then none
    else parseDecChars (normAmountChars (⟨cs⟩ : String).data)) = _
  rw [if_neg hstr]
  show parseDecChars (normAmountChars cs) = _
  rw [hnorm]
  have hassoc : a ++ (b ++ '.' :: c) = (a ++ b) ++ '.' :: c := by simp
  rw [hassoc]
  obtain ⟨d0, d1, hdd⟩ : ∃ d0 d1, a ++ b = d0 :: d1 := by
    cases hE : a ++ b with
    | nil => exact absurd (List.append_eq_nil.mp hE).1 hne
    | cons d0 d1 => exact ⟨d0, d1, rfl⟩
  have hd0 : d0.isDigit = true := hd d0 (by rw [hdd]; exact List.mem_cons_self _ _)
  unfold parseDecChars
  rw [if_neg (by
      rw [hdd]
      simp only [List.cons_append, List.head?_cons, Option.some.injEq]
      exact ne_of_isDigit hd0 '+' (by decide)),
    if_neg (by
      rw [hdd]
      simp only [List.cons_append, List.head?_cons, Option.some.injEq]
      exact ne_of_isDigit hd0 '-' (by decide))]
  unfold parseDecAfterSign
  rw [takeWhile_append_of_all hd, dropWhile_append_of_all hd]
  rw [List.takeWhile_cons, List.dropWhile_cons]
  have hdotdig : ('.' : Char).isDigit = false := by decide
  rw [hdotdig]
  simp only [Bool.false_eq_true, if_false, List.append_nil, List.isEmpty_cons,
    List.head?_cons, Option.some.injEq, List.tail_cons, if_true]
  rw [takeWhile_eq_self_of_all hc, dropWhile_eq_nil_of_all hc]
  have hipne : (a ++ b).isEmpty = false := by
    rw [hdd]; rfl
  simp only [List.isEmpty_nil, hipne, Bool.false_and, Bool.not_true, if_neg]
  norm_num


/-- Witness for the amended C2 theorem at the comma-grouped input
`"1,234.56"`, which parses to `1234.56`. -/
theorem norm_amount_both_seps_drops_commas_witness :
    (∀ x ∈ (['1'] : List Char), x.isDigit = true) ∧
    (∀ x ∈ (['2', '3', '4'] : List Char), x.isDigit = true) ∧
    (∀ x ∈ (['5', '6'] : List Char), x.isDigit = true) ∧
    (['1'] : List Char) ≠ [] ∧
    toDec (some ⟨['1'] ++ ',' :: (['2', '3', '4'] ++ '.' :: ['5', '6'])⟩) =
      some ⟨(natOfDigits (['1'] ++ ['2', '3', '4']) : Int) * 10 ^ (['5', '6'] : List Char).length +
        natOfDigits ['5', '6'], (['5', '6'] : List Char).length⟩ :=
  ⟨by decide, by decide, by decide, by decide,
    norm_amount_both_seps_drops_commas ['1'] ['2', '3', '4'] ['5', '6']
      (by decide) (by decide) (by decide) (by decide)⟩

/-!
## C3 — the signed-only amount encoding is not implemented
-/

/-- C3.  The repository documentation (`saft_parser_docs.py`: a single
`Amount` without an indicator is used with its sign, "negativ = credit")
and the spec scenario demand that `line2410` resolve to signed amount
`-500.00`; the parsers resolve only the `DebitAmount`/`CreditAmount` pair,
both default to `Decimal("0")`, and the emitted row carries
`Debit = Credit = Amount = "0"` even though the line's `Amount` text parses
to `-500.00`. -/
theorem signed_only_amount_line_yields_zero :
    amountOf line2410 "DebitAmount" = none ∧
    amountOf line2410 "CreditAmount" = none ∧
    toDec (firstTag line2410 ["Amount"]) = some ⟨-50000, 2⟩ ∧
    (streamRun none 50000 initState tx2410.events).rows.transactions.map
        (fun r => (r.getD 12 "", r.getD 21 "", r.getD 22 "", r.getD 23 "")) =
      [("2410", "0", "0", "0")] := by
  refine ⟨by decide, by decide, by decide, by decide⟩

/-!
## C4 — the missing-accounts finding does not exclude the sentinel
-/

theorem mem_insertSorted {x a : String} : ∀ {l : List String},
    x ∈ insertSorted a l ↔ x = a ∨ x ∈ l := by
  intro l
  induction l with
  | nil => simp [insertSorted]
  | cons b t ih =>
      by_cases hb : b < a
      · simp only [insertSorted, if_pos hb, List.mem_cons, ih]
        tauto
      · simp only [insertSorted, if_neg hb, List.mem_cons]

theorem mem_sortStrings {x : String} : ∀ {l : List String}, x ∈ sortStrings l ↔ x ∈ l := by
  intro l
  induction l with
  | nil => simp [sortStrings]
  | cons b t ih =>
      simp only [sortStrings, List.foldr_cons] at *
      rw [mem_insertSorted, ih, List.mem_cons]

/-- C4, counterexample.  On a document whose only line resolves no account,
the streaming parser's missing-accounts finding is exactly
`["UNDEFINED"]` — the sentinel is not excluded — and the artifact is
produced; the finding the claim describes (`specMissingOf`, which excludes
the sentinel) would be empty, with no artifact. -/
theorem missing_accounts_sentinel_included :
    missingOf (streamRun none 50000 initState docNoAccount.events) = ["UNDEFINED"] ∧
    specMissingOf (streamRun none 50000 initState docNoAccount.events) = [] ∧
    missingArtifact (streamRun none 50000 initState docNoAccount.events) = some ["UNDEFINED"] := by
  refine ⟨by decide, by decide, by decide⟩

/-- C4, amended.  The missing-accounts finding is the plain set difference
`(AccountIDs seen on lines) − (AccountIDs declared in the accounts sink)`
(with the empty string excluded by the truthiness test, and no sentinel
exclusion), and the artifact is produced exactly when the finding is
non-empty. -/
theorem missing_accounts_set_difference (s : SState) (a : String) :
    (a ∈ missingOf s ↔ a ∈ s.seen ∧ a ≠ "" ∧ lookupGet s.look.accounts a = none) ∧
    (missingArtifact s = none ↔ missingOf s = []) := by
  constructor
  · unfold missingOf
    rw [List.mem_filter, mem_sortStrings]
    simp [Option.isNone_iff_eq_none, and_assoc]
  · unfold missingArtifact
    by_cases h : (missingOf s).isEmpty = true
    · simp [h, List.isEmpty_iff.mp h]
    · rw [if_neg h]
      constructor
      · intro hc; cases hc
      · intro hc
        rw [hc] at h
        exact absurd rfl h

/-!
## C6 — an orphan line close is silently skipped
-/

/-- C6, counterexample.  The claim says a `Line` closing with no open
voucher aborts the streaming path (nothing after it is processed) and
escalates to the fallback parser.  Processing an orphan line close followed
by an `Account` element instead leaves no trace of the line, continues, and
the streaming parser itself emits the later account row; the run is not
aborted, not cancelled, and no exception arises. -/
theorem orphan_line_not_aborting :
    (streamRun none 50000 initState (Evt.stop orphanLine :: accountEl3000.events)).rows.accounts =
      [["3000", "Salg", "", "", "", "", "0", "0", "0", "0", "", ""]] ∧
    (streamRun none 50000 initState (Evt.stop orphanLine :: accountEl3000.events)).rows.transactions = [] ∧
    (streamRun none 50000 initState (Evt.stop orphanLine :: accountEl3000.events)).cancelled = false := by
  refine ⟨by decide, by decide, by decide⟩

/-- C6, amended.  A line element closing while no voucher is open is
silently skipped: the state is left completely unchanged (no row, no
exception, no abort) and traversal continues with the next event. -/
theorem orphan_line_silently_skipped (s : SState) (el : XElem)
    (htag : lname el.tag ∈ lineTags) (hcur : s.cur = none) :
    streamStep s (Evt.stop el) = s ∧
    (∀ pe rest, streamRun none pe s (Evt.stop el :: rest) =
      streamRun none pe { s with events := s.events + 1 } rest) := by
  have hstep : streamStep s (Evt.stop el) = s := by
    simp only [lineTags, List.mem_cons, List.mem_singleton, List.not_mem_nil, or_false] at htag
    rcases htag with hE | hE | hE
    · simp [streamStep, condApply, hE, lineStop, hcur, KNOWN, KNOWN_CONTAINERS, lineTags]
    · simp [streamStep, condApply, hE, lineStop, hcur, KNOWN, KNOWN_CONTAINERS, lineTags]
    · simp [streamStep, condApply, hE, lineStop, hcur, KNOWN, KNOWN_CONTAINERS, lineTags]
  refine ⟨hstep, ?_⟩
  intro pe rest
  show (let s1 := streamStep s (Evt.stop el);
    streamRun none pe { s1 with events := s1.events + 1 } rest) = _
  rw [hstep]


/-!
## Parser-equivalence machinery (C5) and shared handler lemmas
-/

theorem condApply_pos {c : Prop} [Decidable c] (h : c) (g : SState → SState) (s : SState) :
    condApply c g s = g s := if_pos h

theorem condApply_neg {c : Prop} [Decidable c] (h : ¬c) (g : SState → SState) (s : SState) :
    condApply c g s = s := if_neg h

theorem mem_of_head?_eq {α : Type} {l : List α} {a : α} (h : l.head? = some a) : a ∈ l := by
  cases l with
  | nil => cases h
  | cons b t =>
      injection h with h1
      exact h1 ▸ List.mem_cons_self b t

theorem firstTag_ne_empty {e : XElem} {ks : List String} {v : String}
    (h : firstTag e ks = some v) : v ≠ "" := by
  induction ks with
  | nil => cases h
  | cons k ks ih =>
      unfold firstTag at h
      cases hh : (e.iterAll.filterMap
          (fun ch => if lname ch.tag = k then textOf ch else none)).head? with
      | none => rw [hh] at h; exact ih h
      | some w =>
          rw [hh] at h
          injection h with h1
          subst h1
          have hw := mem_of_head?_eq hh
          obtain ⟨ch, _, hch⟩ := List.mem_filterMap.mp hw
          by_cases hcnd : lname ch.tag = k
          · rw [if_pos hcnd] at hch
            unfold textOf at hch
            cases ht : ch.text with
            | none => rw [ht] at hch; cases hch
            | some t =>
                rw [ht] at hch
                dsimp only at hch
                by_cases he : (⟨pyStrip t.data⟩ : String) = ""
                · rw [if_pos he] at hch; cases hch
                · rw [if_neg he] at hch
                  injection hch with h2
                  subst h2
                  exact he
          · rw [if_neg hcnd] at hch; cases hch

theorem lookupGet_mem {A : Type} {l : List (String × A)} {k : String} {v : A}
    (h : lookupGet l k = some v) : (k, v) ∈ l := by
  unfold lookupGet at h
  cases hf : l.find? (fun p => p.1 = k) with
  | none => rw [hf] at h; cases h
  | some q =>
      rw [hf] at h
      injection h with h1
      have hq := List.find?_some hf
      have hmem := List.mem_of_find?_eq_some hf
      have hk : q.1 = k := by simpa using hq
      rcases q with ⟨k0, v0⟩
      simp only at h1 hk
      subst h1
      subst hk
      exact hmem

theorem balanceFold_fst (pt pid : String) : ∀ (bs : List XElem)
    (c0 : List (String × String)) (a0 a1 : List (List String)),
    (bs.foldl (balanceStructStep pt pid) (c0, a0)).1 =
      (bs.foldl (balanceStructStep pt pid) (c0, a1)).1 := by
  intro bs
  induction bs with
  | nil => intro c0 a0 a1; rfl
  | cons b bs ih =>
      intro c0 a0 a1
      cases hft : firstTag b ["AccountID"] <;>
        simp only [List.foldl_cons, balanceStructStep, hft] <;>
        exact ih _ _ _

theorem balanceFold_snd (pt pid : String) : ∀ (bs : List XElem)
    (c0 c1 : List (String × String)) (a0 : List (List String)),
    (bs.foldl (balanceStructStep pt pid) (c0, a0)).2 =
      (bs.foldl (balanceStructStep pt pid) (c1, a0)).2 := by
  intro bs
  induction bs with
  | nil => intro c0 c1 a0; rfl
  | cons b bs ih =>
      intro c0 c1 a0
      cases hft : firstTag b ["AccountID"] <;>
        simp only [List.foldl_cons, balanceStructStep, hft] <;>
        exact ih _ _ _

theorem accountStop_rel {s p : SState} (el : XElem) (h : sharedRel s p) :
    sharedRel (accountStop s el) (accountStop p el) := by
  obtain ⟨hl, hs, hc, h1, h2, h3, h4, h5, h6, h7, h8⟩ := h
  unfold accountStop
  cases hft : firstTag el ["AccountID", "GLAccountID"] with
  | none => exact ⟨hl, hs, hc, h1, h2, h3, h4, h5, h6, h7, h8⟩
  | some accId =>
      dsimp only
      exact ⟨by rw [hl], hs, hc, by simp only [h1], h2, h3, h4, h5, h6, h7, h8⟩

theorem taxStop_rel {s p : SState} (el : XElem) (h : sharedRel s p) :
    sharedRel (taxStop s el) (taxStop p el) := by
  obtain ⟨hl, hs, hc, h1, h2, h3, h4, h5, h6, h7, h8⟩ := h
  unfold taxStop
  exact ⟨hl, hs, hc, h1, by simp only [h2], h3, h4, h5, h6, h7, h8⟩

theorem customerStop_rel {s p : SState} (el : XElem) (h : sharedRel s p) :
    sharedRel (customerStop s el) (customerStop p el) := by
  obtain ⟨hl, hs, hc, h1, h2, h3, h4, h5, h6, h7, h8⟩ := h
  unfold customerStop
  cases hft : firstTag el ["CustomerID", "ID"] with
  | none => exact ⟨hl, hs, hc, h1, h2, h3, h4, h5, h6, h7, h8⟩
  | some cid =>
      dsimp only
      have hctrl : s.look.customerCtrl = p.look.customerCtrl := by rw [hl]
      have hfst :
          (List.foldl (balanceStructStep "Customer" cid)
            (s.look.customerCtrl, s.rows.arap)
            (List.filter (fun b => decide (lname b.tag = "BalanceAccountStructure"))
              el.descendants)).1 =
          (List.foldl (balanceStructStep "Customer" cid)
            (p.look.customerCtrl, p.rows.arap)
            (List.filter (fun b => decide (lname b.tag = "BalanceAccountStructure"))
              el.descendants)).1 := by
        rw [hctrl]
        exact balanceFold_fst _ _ _ _ _ _
      have hsnd :
          (List.foldl (balanceStructStep "Customer" cid)
            (s.look.customerCtrl, s.rows.arap)
            (List.filter (fun b => decide (lname b.tag = "BalanceAccountStructure"))
              el.descendants)).2 =
          (List.foldl (balanceStructStep "Customer" cid)
            (p.look.customerCtrl, p.rows.arap)
            (List.filter (fun b => decide (lname b.tag = "BalanceAccountStructure"))
              el.descendants)).2 := by
        rw [h5]
        exact balanceFold_snd _ _ _ _ _ _
      refine ⟨?_, hs, hc, h1, h2, by simp only [h3], h4, by simp only [hsnd], h6, h7, h8⟩
      rw [hfst, hl]

theorem supplierStop_rel {s p : SState} (el : XElem) (h : sharedRel s p) :
    sharedRel (supplierStop s el) (supplierStop p el) := by
  obtain ⟨hl, hs, hc, h1, h2, h3, h4, h5, h6, h7, h8⟩ := h
  unfold supplierStop
  cases hft : firstTag el ["SupplierID", "ID"] with
  | none => exact ⟨hl, hs, hc, h1, h2, h3, h4, h5, h6, h7, h8⟩
  | some sid =>
      dsimp only
      have hctrl : s.look.supplierCtrl = p.look.supplierCtrl := by rw [hl]
      have hfst :
          (List.foldl (balanceStructStep "Supplier" sid)
            (s.look.supplierCtrl, s.rows.arap)
            (List.filter (fun b => decide (lname b.tag = "BalanceAccountStructure"))
              el.descendants)).1 =
          (List.foldl (balanceStructStep "Supplier" sid)
            (p.look.supplierCtrl, p.rows.arap)
            (List.filter (fun b => decide (lname b.tag = "BalanceAccountStructure"))
              el.descendants)).1 := by
        rw [hctrl]
        exact balanceFold_fst _ _ _ _ _ _
      have hsnd :
          (List.foldl (balanceStructStep "Supplier" sid)
            (s.look.supplierCtrl, s.rows.arap)
            (List.filter (fun b => decide (lname b.tag = "BalanceAccountStructure"))
              el.descendants)).2 =
          (List.foldl (balanceStructStep "Supplier" sid)
            (p.look.supplierCtrl, p.rows.arap)
            (List.filter (fun b => decide (lname b.tag = "BalanceAccountStructure"))
              el.descendants)).2 := by
        rw [h5]
        exact balanceFold_snd _ _ _ _ _ _
      refine ⟨?_, hs, hc, h1, h2, h3, by simp only [h4], by simp only [hsnd], h6, h7, h8⟩
      rw [hfst, hl]

theorem journalTotalsStop_rel {s p : SState} (el : XElem) (h : sharedRel s p) :
    sharedRel (journalTotalsStop s el) (journalTotalsStop p el) := by
  obtain ⟨hl, hs, hc, h1, h2, h3, h4, h5, h6, h7, h8⟩ := h
  unfold journalTotalsStop
  by_cases hb : ((firstTag el ["JournalID", "Journal"]).isSome ||
      (Dec.orZero (amountOf el "TotalDebit")).isTruthy ||
      (Dec.orZero (amountOf el "TotalCredit")).isTruthy) = true
  · rw [if_pos hb, if_pos hb]
    exact ⟨hl, hs, hc, h1, h2, h3, h4, h5, by simp only [h6], h7, h8⟩
  · rw [if_neg hb, if_neg hb]
    exact ⟨hl, hs, hc, h1, h2, h3, h4, h5, h6, h7, h8⟩

theorem lineStop_rel {s p : SState} (el : XElem) (h : sharedRel s p) :
    sharedRel (lineStop s el) (lineStop p el) := by
  obtain ⟨hl, hs, hc, h1, h2, h3, h4, h5, h6, h7, h8⟩ := h
  unfold lineStop
  rw [← hc]
  cases hcv : s.cur with
  | none => exact ⟨hl, hs, hc, h1, h2, h3, h4, h5, h6, h7, h8⟩
  | some v =>
      dsimp only
      refine ⟨hl, ?_, rfl, h1, h2, h3, h4, h5, h6, h7, ?_⟩
      · simp only [hl, hs]
      · simp only [hl, h8]

theorem txStop_rel {s p : SState} (el : XElem) (h : sharedRel s p) :
    sharedRel (txStop s el) (txStop p el) := by
  obtain ⟨hl, hs, hc, h1, h2, h3, h4, h5, h6, h7, h8⟩ := h
  unfold txStop
  rw [← hc]
  cases hcv : s.cur with
  | none => exact ⟨hl, hs, hc, h1, h2, h3, h4, h5, h6, h7, h8⟩
  | some v =>
      dsimp only
      exact ⟨hl, hs, rfl, h1, h2, h3, h4, h5, h6, by simp only [h7], h8⟩

theorem headerStop_rel {s p : SState} (hdr1 hdr2 : XElem → List String) (el : XElem)
    (h : sharedRel s p) : sharedRel (headerStop hdr1 s el) (headerStop hdr2 p el) := by
  obtain ⟨hl, hs, hc, h1, h2, h3, h4, h5, h6, h7, h8⟩ := h
  exact ⟨hl, hs, hc, h1, h2, h3, h4, h5, h6, h7, h8⟩

theorem censusStop_rel_left {s p : SState} (tag : String) (h : sharedRel s p) :
    sharedRel (censusStop s tag) p := by
  obtain ⟨hl, hs, hc, h1, h2, h3, h4, h5, h6, h7, h8⟩ := h
  exact ⟨hl, hs, hc, h1, h2, h3, h4, h5, h6, h7, h8⟩

theorem journalMetaStop_rel_left {s p : SState} (el : XElem) (h : sharedRel s p) :
    sharedRel (journalMetaStop s el) p := by
  obtain ⟨hl, hs, hc, h1, h2, h3, h4, h5, h6, h7, h8⟩ := h
  unfold journalMetaStop
  by_cases hb : (firstTag el ["JournalID", "Journal"]).isSome = true
  · rw [if_pos hb]
    exact ⟨hl, hs, hc, h1, h2, h3, h4, h5, h6, h7, h8⟩
  · rw [if_neg hb]
    exact ⟨hl, hs, hc, h1, h2, h3, h4, h5, h6, h7, h8⟩

theorem condApply_rel {c : Prop} [Decidable c] {s p : SState}
    {g1 g2 : SState → SState}
    (hg : ∀ s2 p2, sharedRel s2 p2 → sharedRel (g1 s2) (g2 p2))
    (h : sharedRel s p) : sharedRel (condApply c g1 s) (condApply c g2 p) := by
  by_cases hcnd : c
  · rw [condApply_pos hcnd, condApply_pos hcnd]
    exact hg s p h
  · rw [condApply_neg hcnd, condApply_neg hcnd]
    exact h

theorem condApply_rel_left {c : Prop} [Decidable c] {s p : SState} {g : SState → SState}
    (hg : ∀ s2, sharedRel s2 p → sharedRel (g s2) p)
    (h : sharedRel s p) : sharedRel (condApply c g s) p := by
  by_cases hcnd : c
  · rw [condApply_pos hcnd]; exact hg s h
  · rw [condApply_neg hcnd]; exact h

theorem stepRel {s p : SState} (ev : Evt) (h : sharedRel s p) :
    sharedRel (streamStep s ev) (proStep p ev) := by
  cases ev with
  | start el =>
      refine condApply_rel (fun s2 p2 h2 => ?_) h
      obtain ⟨hl, hs, hc, h1, h2, h3, h4, h5, h6, h7, h8⟩ := h2
      exact ⟨hl, hs, rfl, h1, h2, h3, h4, h5, h6, h7, h8⟩
  | stop el =>
      apply condApply_rel (fun s2 p2 h2 => txStop_rel el h2)
      apply condApply_rel (fun s2 p2 h2 => lineStop_rel el h2)
      apply condApply_rel (fun s2 p2 h2 =>
        journalTotalsStop_rel el (journalMetaStop_rel_left el h2))
      apply condApply_rel (fun s2 p2 h2 => supplierStop_rel el h2)
      apply condApply_rel (fun s2 p2 h2 => customerStop_rel el h2)
      apply condApply_rel (fun s2 p2 h2 => taxStop_rel el h2)
      apply condApply_rel (fun s2 p2 h2 => accountStop_rel el h2)
      apply condApply_rel (fun s2 p2 h2 => headerStop_rel headerRowStream headerRowPro el h2)
      exact condApply_rel_left (fun s2 h2 => censusStop_rel_left _ h2) h

theorem runRel (pe : Nat) : ∀ (evts : List Evt) {s p : SState}, sharedRel s p →
    sharedRel (streamRun none pe s evts) (proRun p evts) := by
  intro evts
  induction evts with
  | nil => intro s p h; exact h
  | cons ev rest ih =>
      intro s p h
      have hstep := stepRel ev h
      cases ev with
      | start el => exact ih hstep
      | stop el =>
          show sharedRel (streamRun none pe
            { streamStep s (Evt.stop el) with
              events := (streamStep s (Evt.stop el)).events + 1 } rest)
            (proRun (proStep p (Evt.stop el)) rest)
          apply ih
          obtain ⟨hl, hs, hc, h1, h2, h3, h4, h5, h6, h7, h8⟩ := hstep
          exact ⟨hl, hs, hc, h1, h2, h3, h4, h5, h6, h7, h8⟩

theorem auxKeep_trans {s3 s2 s : SState} (h32 : auxKeep s3 s2) (h21 : auxKeep s2 s) :
    auxKeep s3 s :=
  ⟨h32.1.trans h21.1, h32.2.1.trans h21.2.1, h32.2.2.trans h21.2.2⟩

theorem condApply_aux {c : Prop} [Decidable c] {g : SState → SState}
    (hg : ∀ s2, auxKeep (g s2) s2) (s : SState) : auxKeep (condApply c g s) s := by
  by_cases hcnd : c
  · rw [condApply_pos hcnd]; exact hg s
  · rw [condApply_neg hcnd]; exact ⟨rfl, rfl, rfl⟩

theorem txStart_aux (s : SState) (el : XElem) : auxKeep (txStart s el) s :=
  ⟨rfl, rfl, rfl⟩

theorem censusStop_aux (s : SState) (tag : String) : auxKeep (censusStop s tag) s :=
  ⟨rfl, rfl, rfl⟩

theorem headerStop_aux (hdr : XElem → List String) (s : SState) (el : XElem) :
    auxKeep (headerStop hdr s el) s :=
  ⟨rfl, rfl, rfl⟩

theorem accountStop_aux (s : SState) (el : XElem) : auxKeep (accountStop s el) s := by
  unfold accountStop; split <;> exact ⟨rfl, rfl, rfl⟩

theorem taxStop_aux (s : SState) (el : XElem) : auxKeep (taxStop s el) s :=
  ⟨rfl, rfl, rfl⟩

theorem customerStop_aux (s : SState) (el : XElem) : auxKeep (customerStop s el) s := by
  unfold customerStop; split <;> exact ⟨rfl, rfl, rfl⟩

theorem supplierStop_aux (s : SState) (el : XElem) : auxKeep (supplierStop s el) s := by
  unfold supplierStop; split <;> exact ⟨rfl, rfl, rfl⟩

theorem journalTotalsStop_aux (s : SState) (el : XElem) :
    auxKeep (journalTotalsStop s el) s := by
  unfold journalTotalsStop; dsimp only; split <;> exact ⟨rfl, rfl, rfl⟩

theorem journalMetaStop_aux (s : SState) (el : XElem) :
    auxKeep (journalMetaStop s el) s := by
  unfold journalMetaStop; dsimp only; split <;> exact ⟨rfl, rfl, rfl⟩

theorem lineStop_aux (s : SState) (el : XElem) : auxKeep (lineStop s el) s := by
  unfold lineStop; split <;> exact ⟨rfl, rfl, rfl⟩

theorem txStop_aux (s : SState) (el : XElem) : auxKeep (txStop s el) s := by
  unfold txStop; split <;> exact ⟨rfl, rfl, rfl⟩

/-- No ancestor-free handler block of the streaming loop touches the three
ancestor-driven sinks. -/
theorem streamStep_aux (s : SState) (ev : Evt) : auxKeep (streamStep s ev) s := by
  cases ev with
  | start el =>
      exact condApply_aux (c := lname el.tag = "Transaction")
        (g := fun s2 => txStart s2 el) (fun s2 => txStart_aux s2 el) s
  | stop el =>
      exact auxKeep_trans (condApply_aux (fun s2 => txStop_aux s2 el) _)
        (auxKeep_trans (condApply_aux (fun s2 => lineStop_aux s2 el) _)
        (auxKeep_trans (condApply_aux (fun s2 =>
            auxKeep_trans (journalTotalsStop_aux _ el) (journalMetaStop_aux s2 el)) _)
        (auxKeep_trans (condApply_aux (fun s2 => supplierStop_aux s2 el) _)
        (auxKeep_trans (condApply_aux (fun s2 => customerStop_aux s2 el) _)
        (auxKeep_trans (condApply_aux (fun s2 => taxStop_aux s2 el) _)
        (auxKeep_trans (condApply_aux (fun s2 => accountStop_aux s2 el) _)
        (auxKeep_trans (condApply_aux (fun s2 => headerStop_aux headerRowStream s2 el) _)
        (condApply_aux (fun s2 => censusStop_aux s2 (lname el.tag)) _))))))))

/-- No ancestor-free handler block of the fallback loop touches the three
ancestor-driven sinks. -/
theorem proStep_aux (s : SState) (ev : Evt) : auxKeep (proStep s ev) s := by
  cases ev with
  | start el =>
      exact condApply_aux (c := lname el.tag = "Transaction")
        (g := fun s2 => txStart s2 el) (fun s2 => txStart_aux s2 el) s
  | stop el =>
      exact auxKeep_trans (condApply_aux (fun s2 => txStop_aux s2 el) _)
        (auxKeep_trans (condApply_aux (fun s2 => lineStop_aux s2 el) _)
        (auxKeep_trans (condApply_aux (fun s2 => journalTotalsStop_aux s2 el) _)
        (auxKeep_trans (condApply_aux (fun s2 => supplierStop_aux s2 el) _)
        (auxKeep_trans (condApply_aux (fun s2 => customerStop_aux s2 el) _)
        (auxKeep_trans (condApply_aux (fun s2 => taxStop_aux s2 el) _)
        (auxKeep_trans (condApply_aux (fun s2 => accountStop_aux s2 el) _)
        (condApply_aux (fun s2 => headerStop_aux headerRowPro s2 el) _)))))))

/-- The `Analysis` row is built from the element and its ancestor chain
only, so the handler preserves the extended relation. -/
theorem analysisStop_relC {s p : SState} (el : XElem) (anc : List XElem)
    (h : sharedRelC s p) : sharedRelC (analysisStop s el anc) (analysisStop p el anc) := by
  obtain ⟨⟨hl, hs, hc, h1, h2, h3, h4, h5, h6, h7, h8⟩, h9, h10, h11⟩ := h
  unfold analysisStop
  exact ⟨⟨hl, hs, hc, h1, h2, h3, h4, h5, h6, h7, h8⟩, by simp only [h9], h10, h11⟩

/-- The `Invoice` row reads only the element, its parent's local name and
the shared customers/suppliers dictionaries, so the handler preserves the
extended relation. -/
theorem invoiceStop_relC {s p : SState} (el : XElem) (anc : List XElem)
    (h : sharedRelC s p) : sharedRelC (invoiceStop s el anc) (invoiceStop p el anc) := by
  obtain ⟨⟨hl, hs, hc, h1, h2, h3, h4, h5, h6, h7, h8⟩, h9, h10, h11⟩ := h
  unfold invoiceStop
  dsimp only
  by_cases hp1 : (match anc.head? with
      | some q => lname q.tag
      | none => "") = "SalesInvoices"
  · rw [if_pos hp1, if_pos hp1]
    refine ⟨⟨hl, hs, hc, h1, h2, h3, h4, h5, h6, h7, h8⟩, h9, ?_, h11⟩
    rw [h10, hl]
  · rw [if_neg hp1, if_neg hp1]
    by_cases hp2 : (match anc.head? with
        | some q => lname q.tag
        | none => "") = "PurchaseInvoices"
    · rw [if_pos hp2, if_pos hp2]
      refine ⟨⟨hl, hs, hc, h1, h2, h3, h4, h5, h6, h7, h8⟩, h9, h10, ?_⟩
      rw [h11, hl]
    · rw [if_neg hp2, if_neg hp2]
      exact ⟨⟨hl, hs, hc, h1, h2, h3, h4, h5, h6, h7, h8⟩, h9, h10, h11⟩

theorem condApply_relC {c : Prop} [Decidable c] {s p : SState}
    {g1 g2 : SState → SState}
    (hg : ∀ s2 p2, sharedRelC s2 p2 → sharedRelC (g1 s2) (g2 p2))
    (h : sharedRelC s p) : sharedRelC (condApply c g1 s) (condApply c g2 p) := by
  by_cases hcnd : c
  · rw [condApply_pos hcnd, condApply_pos hcnd]
    exact hg s p h
  · rw [condApply_neg hcnd, condApply_neg hcnd]
    exact h

/-- One contextual event preserves the extended relation between the two
loops: the ancestor-free blocks via `stepRel` (which leave the three new
sinks untouched), the `Analysis` and `Invoice` blocks via their own
relation lemmas. -/
theorem stepRelC {s p : SState} (ev : CEvt) (h : sharedRelC s p) :
    sharedRelC (streamStepC s ev) (proStepC p ev) := by
  cases ev with
  | start el anc =>
      show sharedRelC (streamStep s (Evt.start el)) (proStep p (Evt.start el))
      have ha := streamStep_aux s (Evt.start el)
      have hb := proStep_aux p (Evt.start el)
      refine ⟨stepRel (Evt.start el) h.1, ?_, ?_, ?_⟩
      · rw [ha.1, hb.1]; exact h.2.1
      · rw [ha.2.1, hb.2.1]; exact h.2.2.1
      · rw [ha.2.2, hb.2.2]; exact h.2.2.2
  | stop el anc =>
      have hmid : sharedRelC (streamStep s (Evt.stop el)) (proStep p (Evt.stop el)) := by
        have ha := streamStep_aux s (Evt.stop el)
        have hb := proStep_aux p (Evt.stop el)
        refine ⟨stepRel (Evt.stop el) h.1, ?_, ?_, ?_⟩
        · rw [ha.1, hb.1]; exact h.2.1
        · rw [ha.2.1, hb.2.1]; exact h.2.2.1
        · rw [ha.2.2, hb.2.2]; exact h.2.2.2
      apply condApply_relC (fun s2 p2 h2 => invoiceStop_relC el anc h2)
      apply condApply_relC (fun s2 p2 h2 => analysisStop_relC el anc h2)
      exact hmid

/-- The extended relation is an invariant of the paired contextual runs. -/
theorem runRelC (pe : Nat) : ∀ (evts : List CEvt) {s p : SState}, sharedRelC s p →
    sharedRelC (streamRunC none pe s evts) (proRunC p evts) := by
  intro evts
  induction evts with
  | nil => intro s p h; exact h
  | cons ev rest ih =>
      intro s p h
      have hstep := stepRelC ev h
      cases ev with
      | start el anc => exact ih hstep
      | stop el anc =>
          show sharedRelC (streamRunC none pe
            { streamStepC s (CEvt.stop el anc) with
              events := (streamStepC s (CEvt.stop el anc)).events + 1 } rest)
            (proRunC (proStepC p (CEvt.stop el anc)) rest)
          apply ih
          obtain ⟨⟨hl, hs, hc, h1, h2, h3, h4, h5, h6, h7, h8⟩, h9, h10, h11⟩ := hstep
          exact ⟨⟨hl, hs, hc, h1, h2, h3, h4, h5, h6, h7, h8⟩, h9, h10, h11⟩


/-- C5, counterexample.  On the small conforming document `docSmall` the two
parsers emit identical customer rows, yet the `customers.csv` files differ
byte for byte, because the streaming writer is opened with
`lineterminator="\n"` while the fallback writer uses the `csv`-module
default `"\r\n"`; moreover the header sink differs even at the row level,
because only the streaming parser resolves `DefaultCurrencyCode` through
the `CurrencyCode` alias. -/
theorem stream_pro_bytes_differ :
    csvTable "\n" customersHeader
        (streamRunC none 50000 initState (docSmall.eventsC [])).rows.customers ≠
      csvTable "\x0d\n" customersHeader
        (proRunC initState (docSmall.eventsC [])).rows.customers ∧
    (streamRunC none 50000 initState (docSmall.eventsC [])).rows.customers =
      (proRunC initState (docSmall.eventsC [])).rows.customers ∧
    (streamRunC none 50000 initState (docSmall.eventsC [])).rows.header ≠
      (proRunC initState (docSmall.eventsC [])).rows.header := by
  refine ⟨by decide, by decide, by decide⟩

/-- C5, amended.  For every contextual event stream, the streaming parser
(without a callback) and the fallback parser produce identical rows, in
identical order, in every shared entity sink except the header sink —
accounts, tax_table, customers, suppliers, arap_control_accounts,
gl_totals, vouchers, transactions, analysis_lines, sales_invoices,
purchase_invoices — and identical missing-accounts findings; but the files
are not byte-for-byte identical (LF vs CRLF line terminators), and the
header row may differ in the `DefaultCurrencyCode` cell. -/
theorem stream_pro_row_equivalence (pe : Nat) (evts : List CEvt) :
    (streamRunC none pe initState evts).rows.accounts = (proRunC initState evts).rows.accounts ∧
    (streamRunC none pe initState evts).rows.tax = (proRunC initState evts).rows.tax ∧
    (streamRunC none pe initState evts).rows.customers =
      (proRunC initState evts).rows.customers ∧
    (streamRunC none pe initState evts).rows.suppliers =
      (proRunC initState evts).rows.suppliers ∧
    (streamRunC none pe initState evts).rows.arap = (proRunC initState evts).rows.arap ∧
    (streamRunC none pe initState evts).rows.glTotals =
      (proRunC initState evts).rows.glTotals ∧
    (streamRunC none pe initState evts).rows.vouchers =
      (proRunC initState evts).rows.vouchers ∧
    (streamRunC none pe initState evts).rows.transactions =
      (proRunC initState evts).rows.transactions ∧
    (streamRunC none pe initState evts).rows.analysis =
      (proRunC initState evts).rows.analysis ∧
    (streamRunC none pe initState evts).rows.salesInv =
      (proRunC initState evts).rows.salesInv ∧
    (streamRunC none pe initState evts).rows.purchInv =
      (proRunC initState evts).rows.purchInv ∧
    missingOf (streamRunC none pe initState evts) = missingOf (proRunC initState evts) ∧
    missingArtifact (streamRunC none pe initState evts) =
      missingArtifact (proRunC initState evts) := by
  have h := runRelC pe evts (s := initState) (p := initState)
    ⟨⟨rfl, rfl, rfl, rfl, rfl, rfl, rfl, rfl, rfl, rfl, rfl⟩, rfl, rfl, rfl⟩
  obtain ⟨⟨hl, hs, hc, h1, h2, h3, h4, h5, h6, h7, h8⟩, h9, h10, h11⟩ := h
  have hmiss : missingOf (streamRunC none pe initState evts) =
      missingOf (proRunC initState evts) := by
    unfold missingOf
    rw [hs, hl]
  refine ⟨h1, h2, h3, h4, h5, h6, h7, h8, h9, h10, h11, hmiss, ?_⟩
  unfold missingArtifact
  rw [hmiss]

/-!
## C9 — the progress channel is purely advisory
-/

theorem condApply_cancelled {c : Prop} [Decidable c] {g : SState → SState}
    (hg : ∀ s2, (g s2).cancelled = s2.cancelled) (s : SState) :
    (condApply c g s).cancelled = s.cancelled := by
  by_cases hcnd : c
  · rw [condApply_pos hcnd]; exact hg s
  · rw [condApply_neg hcnd]

theorem accountStop_cancelled (s : SState) (el : XElem) :
    (accountStop s el).cancelled = s.cancelled := by
  unfold accountStop; split <;> rfl

theorem taxStop_cancelled (s : SState) (el : XElem) :
    (taxStop s el).cancelled = s.cancelled := rfl

theorem headerStop_cancelled (hdr : XElem → List String) (s : SState) (el : XElem) :
    (headerStop hdr s el).cancelled = s.cancelled := rfl

theorem censusStop_cancelled (s : SState) (tag : String) :
    (censusStop s tag).cancelled = s.cancelled := rfl

theorem customerStop_cancelled (s : SState) (el : XElem) :
    (customerStop s el).cancelled = s.cancelled := by
  unfold customerStop; split <;> rfl

theorem supplierStop_cancelled (s : SState) (el : XElem) :
    (supplierStop s el).cancelled = s.cancelled := by
  unfold supplierStop; split <;> rfl

theorem journalTotalsStop_cancelled (s : SState) (el : XElem) :
    (journalTotalsStop s el).cancelled = s.cancelled := by
  unfold journalTotalsStop; dsimp only; split <;> rfl

theorem journalMetaStop_cancelled (s : SState) (el : XElem) :
    (journalMetaStop s el).cancelled = s.cancelled := by
  unfold journalMetaStop; dsimp only; split <;> rfl

theorem lineStop_cancelled (s : SState) (el : XElem) :
    (lineStop s el).cancelled = s.cancelled := by
  unfold lineStop; split <;> rfl

theorem txStop_cancelled (s : SState) (el : XElem) :
    (txStop s el).cancelled = s.cancelled := by
  unfold txStop; split <;> rfl

theorem streamStep_cancelled (s : SState) (ev : Evt) :
    (streamStep s ev).cancelled = s.cancelled := by
  cases ev with
  | start el =>
      exact condApply_cancelled (c := lname el.tag = "Transaction")
        (g := fun s2 => txStart s2 el) (fun s2 => rfl) s
  | stop el =>
      exact (condApply_cancelled (fun s2 => txStop_cancelled s2 el) _).trans
        ((condApply_cancelled (fun s2 => lineStop_cancelled s2 el) _).trans
        ((condApply_cancelled (fun s2 =>
            (journalTotalsStop_cancelled _ el).trans (journalMetaStop_cancelled s2 el)) _).trans
        ((condApply_cancelled (fun s2 => supplierStop_cancelled s2 el) _).trans
        ((condApply_cancelled (fun s2 => customerStop_cancelled s2 el) _).trans
        ((condApply_cancelled (fun s2 => taxStop_cancelled s2 el) _).trans
        ((condApply_cancelled (fun s2 => accountStop_cancelled s2 el) _).trans
        ((condApply_cancelled (fun s2 => headerStop_cancelled headerRowStream s2 el) _).trans
        (condApply_cancelled (fun s2 => censusStop_cancelled s2 (lname el.tag)) _))))))))

theorem streamRun_none_cancelled {pe : Nat} : ∀ (evts : List Evt) (s : SState),
    (streamRun none pe s evts).cancelled = s.cancelled := by
  intro evts
  induction evts with
  | nil => intro s; rfl
  | cons ev rest ih =>
      intro s
      cases ev with
      | start el => exact (ih _).trans (streamStep_cancelled s _)
      | stop el =>
          show (streamRun none pe
            { streamStep s (Evt.stop el) with
              events := (streamStep s (Evt.stop el)).events + 1 } rest).cancelled = s.cancelled
          rw [ih]
          exact streamStep_cancelled s _

theorem streamRun_noStop {pe : Nat} {f : Nat → Bool} (hf : ∀ n, f n = false) :
    ∀ (evts : List Evt) (s : SState),
    streamRun (some f) pe s evts = streamRun none pe s evts := by
  intro evts
  induction evts with
  | nil => intro s; rfl
  | cons ev rest ih =>
      intro s
      cases ev with
      | start el => exact ih _
      | stop el =>
          have hcond : ¬(((streamStep s (Evt.stop el)).events + 1) % pe = 0 ∧
              f ((streamStep s (Evt.stop el)).events + 1) = true) := by
            rintro ⟨-, hcf⟩
            rw [hf] at hcf
            cases hcf
          show (if ((streamStep s (Evt.stop el)).events + 1) % pe = 0 ∧
                f ((streamStep s (Evt.stop el)).events + 1) = true then _ else _) = _
          rw [if_neg hcond]
          exact ih _

/-- C9.  The claim holds: the progress callback is purely advisory — a run
with a callback that never returns the stop value is state-identical (all
sinks, lookups, census, event counter) to a run with no callback at all,
and such a run is never marked cancelled. -/
theorem progress_callback_advisory (pe : Nat) (f : Nat → Bool) (evts : List Evt)
    (hf : ∀ n, f n = false) :
    streamRun (some f) pe initState evts = streamRun none pe initState evts ∧
    (streamRun none pe initState evts).cancelled = false := by
  refine ⟨streamRun_noStop hf evts initState, ?_⟩
  rw [streamRun_none_cancelled]
  rfl

/-- Witness for C9 with the constantly-continue callback on the sample
document. -/
theorem progress_callback_advisory_witness :
    (∀ n : Nat, (fun _ : Nat => false) n = false) ∧
    (streamRun (some (fun _ : Nat => false)) 50000 initState docSmall.events =
      streamRun none 50000 initState docSmall.events ∧
    (streamRun none 50000 initState docSmall.events).cancelled = false) :=
  ⟨fun _ => rfl,
    progress_callback_advisory 50000 (fun _ => false) docSmall.events (fun _ => rfl)⟩


/-!
## Decimal value semantics
-/

theorem Dec.toRat_zero : Dec.zero.toRat = 0 := by
  unfold Dec.zero Dec.toRat
  norm_num

theorem Dec.toRat_add (a b : Dec) : (a.add b).toRat = a.toRat + b.toRat := by
  unfold Dec.add Dec.toRat
  dsimp only
  have h1 : a.scale ≤ max a.scale b.scale := le_max_left _ _
  have h2 : b.scale ≤ max a.scale b.scale := le_max_right _ _
  have e1 : (10 : ℚ) ^ (max a.scale b.scale - a.scale) * 10 ^ a.scale =
      10 ^ max a.scale b.scale := by
    rw [← pow_add, Nat.sub_add_cancel h1]
  have e2 : (10 : ℚ) ^ (max a.scale b.scale - b.scale) * 10 ^ b.scale =
      10 ^ max a.scale b.scale := by
    rw [← pow_add, Nat.sub_add_cancel h2]
  have hz1 : (10 : ℚ) ^ a.scale ≠ 0 := pow_ne_zero _ (by norm_num)
  have hz2 : (10 : ℚ) ^ b.scale ≠ 0 := pow_ne_zero _ (by norm_num)
  have hzm : (10 : ℚ) ^ max a.scale b.scale ≠ 0 := pow_ne_zero _ (by norm_num)
  field_simp
  linear_combination ((a.man : ℚ) * 10 ^ b.scale) * e1 + ((b.man : ℚ) * 10 ^ a.scale) * e2

theorem Dec.toRat_sub (a b : Dec) : (a.sub b).toRat = a.toRat - b.toRat := by
  unfold Dec.sub Dec.toRat
  dsimp only
  have h1 : a.scale ≤ max a.scale b.scale := le_max_left _ _
  have h2 : b.scale ≤ max a.scale b.scale := le_max_right _ _
  have e1 : (10 : ℚ) ^ (max a.scale b.scale - a.scale) * 10 ^ a.scale =
      10 ^ max a.scale b.scale := by
    rw [← pow_add, Nat.sub_add_cancel h1]
  have e2 : (10 : ℚ) ^ (max a.scale b.scale - b.scale) * 10 ^ b.scale =
      10 ^ max a.scale b.scale := by
    rw [← pow_add, Nat.sub_add_cancel h2]
  have hz1 : (10 : ℚ) ^ a.scale ≠ 0 := pow_ne_zero _ (by norm_num)
  have hz2 : (10 : ℚ) ^ b.scale ≠ 0 := pow_ne_zero _ (by norm_num)
  have hzm : (10 : ℚ) ^ max a.scale b.scale ≠ 0 := pow_ne_zero _ (by norm_num)
  field_simp
  linear_combination ((a.man : ℚ) * 10 ^ b.scale) * e1 - ((b.man : ℚ) * 10 ^ a.scale) * e2

theorem Dec.toRat_copyAbs (a : Dec) : a.copyAbs.toRat = |a.toRat| := by
  unfold Dec.copyAbs Dec.toRat
  dsimp only
  rw [abs_div]
  have : |(10 : ℚ) ^ a.scale| = 10 ^ a.scale := abs_of_pos (by positivity)
  rw [this]
  push_cast
  rfl

theorem Dec.le_iff_toRat (a b : Dec) : a.le b ↔ a.toRat ≤ b.toRat := by
  unfold Dec.le Dec.toRat
  rw [div_le_div_iff (by positivity) (by positivity)]
  constructor
  · intro h
    exact_mod_cast h
  · intro h
    exact_mod_cast h

/-- `Σ (f − g) = Σ f − Σ g` over a list, for rationals. -/
theorem sum_map_sub (f g : XElem → ℚ) : ∀ (l : List XElem),
    (l.map (fun x => f x - g x)).sum = (l.map f).sum - (l.map g).sum := by
  intro l
  induction l with
  | nil => simp
  | cons a t ih =>
      simp only [List.map_cons, List.sum_cons, ih]
      ring

/-!
## Generic run lemmas
-/

theorem streamRun_append {pe : Nat} : ∀ (l1 l2 : List Evt) (s : SState),
    streamRun none pe s (l1 ++ l2) = streamRun none pe (streamRun none pe s l1) l2 := by
  intro l1
  induction l1 with
  | nil => intro l2 s; rfl
  | cons ev rest ih =>
      intro l2 s
      cases ev with
      | start el => exact ih l2 _
      | stop el => exact ih l2 _

theorem condApply_pres {P : SState → Prop} {c : Prop} [Decidable c] {g : SState → SState}
    (hg : ∀ s2, P s2 → P (g s2)) {s : SState} (h : P s) : P (condApply c g s) := by
  by_cases hcnd : c
  · rw [condApply_pos hcnd]; exact hg s h
  · rw [condApply_neg hcnd]; exact h

theorem streamStep_pres {P : SState → Prop}
    (hTxStart : ∀ s el, P s → P (txStart s el))
    (hCensus : ∀ s t, P s → P (censusStop s t))
    (hHeader : ∀ s el, P s → P (headerStop headerRowStream s el))
    (hAccount : ∀ s el, P s → P (accountStop s el))
    (hTax : ∀ s el, P s → P (taxStop s el))
    (hCustomer : ∀ s el, P s → P (customerStop s el))
    (hSupplier : ∀ s el, P s → P (supplierStop s el))
    (hJournalT : ∀ s el, P s → P (journalTotalsStop s el))
    (hJournalM : ∀ s el, P s → P (journalMetaStop s el))
    (hLine : ∀ s el, P s → P (lineStop s el))
    (hTxStop : ∀ s el, P s → P (txStop s el))
    (s : SState) (ev : Evt) (h : P s) : P (streamStep s ev) := by
  cases ev with
  | start el => exact condApply_pres (fun s2 => hTxStart s2 el) h
  | stop el =>
      apply condApply_pres (fun s2 => hTxStop s2 el)
      apply condApply_pres (fun s2 => hLine s2 el)
      apply condApply_pres (fun s2 h2 => hJournalT _ el (hJournalM s2 el h2))
      apply condApply_pres (fun s2 => hSupplier s2 el)
      apply condApply_pres (fun s2 => hCustomer s2 el)
      apply condApply_pres (fun s2 => hTax s2 el)
      apply condApply_pres (fun s2 => hAccount s2 el)
      apply condApply_pres (fun s2 => hHeader s2 el)
      exact condApply_pres (fun s2 => hCensus s2 (lname el.tag)) h

theorem streamRun_pres {P : SState → Prop}
    (hStep : ∀ s ev, P s → P (streamStep s ev))
    (hTick : ∀ s, P s → P { s with events := s.events + 1 })
    (hCancel : ∀ s, P s → P { s with cancelled := true }) (cb : Option (Nat → Bool))
    (pe : Nat) : ∀ (evts : List Evt) (s : SState), P s → P (streamRun cb pe s evts) := by
  intro evts
  induction evts with
  | nil => intro s h; exact h
  | cons ev rest ih =>
      intro s h
      have h1 := hStep s ev h
      cases ev with
      | start el => exact ih _ h1
      | stop el =>
          have h2 := hTick _ h1
          cases cb with
          | none => exact ih _ h2
          | some f =>
              simp only [streamRun]
              split
              · exact hCancel _ h2
              · exact ih _ h2


/-!
## C7 — every emitted line row has a non-empty AccountID
-/

theorem balanceFold_ctrlOk (pt pid : String) : ∀ (bs : List XElem)
    (c0 : List (String × String)) (a0 : List (List String)),
    (∀ q ∈ c0, q.2 ≠ "") →
    ∀ q ∈ (bs.foldl (balanceStructStep pt pid) (c0, a0)).1, q.2 ≠ "" := by
  intro bs
  induction bs with
  | nil => intro c0 a0 h; exact h
  | cons b bs ih =>
      intro c0 a0 h
      cases hft : firstTag b ["AccountID"] with
      | none =>
          simp only [List.foldl_cons, balanceStructStep, hft]
          exact ih _ _ h
      | some acct =>
          simp only [List.foldl_cons, balanceStructStep, hft]
          apply ih
          intro q hq
          rcases List.mem_cons.mp hq with hq1 | hq2
          · rw [hq1]
            exact firstTag_ne_empty hft
          · exact h q hq2

theorem customerStop_ctrlOk (s : SState) (el : XElem) (h : ctrlOk s.look) :
    ctrlOk (customerStop s el).look := by
  unfold customerStop
  cases hft : firstTag el ["CustomerID", "ID"] with
  | none => exact h
  | some cid =>
      dsimp only
      exact ⟨balanceFold_ctrlOk _ _ _ _ _ h.1, h.2⟩

theorem supplierStop_ctrlOk (s : SState) (el : XElem) (h : ctrlOk s.look) :
    ctrlOk (supplierStop s el).look := by
  unfold supplierStop
  cases hft : firstTag el ["SupplierID", "ID"] with
  | none => exact h
  | some sid =>
      dsimp only
      exact ⟨h.1, balanceFold_ctrlOk _ _ _ _ _ h.2⟩

theorem accountStop_ctrlOk (s : SState) (el : XElem) (h : ctrlOk s.look) :
    ctrlOk (accountStop s el).look := by
  unfold accountStop
  split
  · exact h
  · exact h

theorem journalTotalsStop_ctrlOk (s : SState) (el : XElem) (h : ctrlOk s.look) :
    ctrlOk (journalTotalsStop s el).look := by
  unfold journalTotalsStop
  dsimp only
  split
  · exact h
  · exact h

theorem journalMetaStop_ctrlOk (s : SState) (el : XElem) (h : ctrlOk s.look) :
    ctrlOk (journalMetaStop s el).look := by
  unfold journalMetaStop
  dsimp only
  split
  · exact h
  · exact h

theorem lineStop_ctrlOk (s : SState) (el : XElem) (h : ctrlOk s.look) :
    ctrlOk (lineStop s el).look := by
  unfold lineStop
  split
  · exact h
  · exact h

theorem txStop_ctrlOk (s : SState) (el : XElem) (h : ctrlOk s.look) :
    ctrlOk (txStop s el).look := by
  unfold txStop
  split
  · exact h
  · exact h

theorem streamStep_ctrlOk (s : SState) (ev : Evt) (h : ctrlOk s.look) :
    ctrlOk (streamStep s ev).look :=
  streamStep_pres (fun _ _ h2 => h2) (fun _ _ h2 => h2) (fun _ _ h2 => h2)
    accountStop_ctrlOk (fun _ _ h2 => h2) customerStop_ctrlOk supplierStop_ctrlOk
    journalTotalsStop_ctrlOk journalMetaStop_ctrlOk lineStop_ctrlOk txStop_ctrlOk s ev h

theorem streamStep_line (s : SState) (el : XElem) (htag : lname el.tag ∈ lineTags) :
    streamStep s (Evt.stop el) = lineStop s el := by
  simp only [lineTags, List.mem_cons, List.mem_singleton, List.not_mem_nil, or_false] at htag
  rcases htag with hE | hE | hE <;>
    simp [streamStep, condApply, hE, KNOWN, KNOWN_CONTAINERS, lineTags]

theorem lineAccId_eq_fallback (look : Lookups) (el : XElem) (hok : ctrlOk look) :
    lineAccId look el = accountFallback look el ∧ accountFallback look el ≠ "" := by
  unfold lineAccId lineAccRaw accountFallback
  cases hft : firstTag el ["AccountID", "GLAccountID"] with
  | some a =>
      have hne := firstTag_ne_empty hft
      dsimp only
      rw [if_neg hne]
      exact ⟨rfl, hne⟩
  | none =>
      dsimp only
      cases hcb : (firstTag el ["CustomerID", "Customer"]).bind (lookupGet look.customerCtrl) with
      | some ca =>
          obtain ⟨c, hc1, hc2⟩ := Option.bind_eq_some.mp hcb
          have hne : ca ≠ "" := hok.1 (c, ca) (lookupGet_mem hc2)
          dsimp only
          rw [if_neg hne]
          exact ⟨rfl, hne⟩
      | none =>
          dsimp only
          cases hsb : (firstTag el ["SupplierID", "Supplier", "VendorID", "Vendor"]).bind
              (lookupGet look.supplierCtrl) with
          | some sa =>
              obtain ⟨c, hc1, hc2⟩ := Option.bind_eq_some.mp hsb
              have hne : sa ≠ "" := hok.2 (c, sa) (lookupGet_mem hc2)
              dsimp only
              rw [if_neg hne]
              exact ⟨rfl, hne⟩
          | none =>
              dsimp only
              rw [if_pos rfl]
              exact ⟨rfl, by decide⟩

theorem lineStop_row (s : SState) (v : Voucher) (el : XElem) (hcur : s.cur = some v)
    (hok : ctrlOk s.look) :
    ∃ row, (lineStop s el).rows.transactions = s.rows.transactions ++ [row] ∧
      row.getD 12 "" = accountFallback s.look el ∧ accountFallback s.look el ≠ "" := by
  obtain ⟨hval, hne⟩ := lineAccId_eq_fallback s.look el hok
  unfold lineStop
  rw [hcur]
  dsimp only
  refine ⟨_, rfl, ?_, hne⟩
  simp only [List.getD_cons_succ, List.getD_cons_zero]
  exact hval

/-- C7.  The claim holds: every emitted transaction-line row has a
non-empty `AccountID`, resolved as the claim describes — the
`AccountID`/`GLAccountID` alias, else the customer's recorded control
account, else the supplier's, else the sentinel `"UNDEFINED"` — and the row
is emitted (never omitted) whenever a voucher is open.  The first conjunct
shows every reachable state has control-account dictionaries with non-empty
values, so the second applies along any run. -/
theorem line_row_account_id_nonempty :
    (∀ cb pe evts, ctrlOk (streamRun cb pe initState evts).look) ∧
    (∀ (s : SState) (v : Voucher) (el : XElem), s.cur = some v →
      lname el.tag ∈ lineTags → ctrlOk s.look →
      ∃ row, (streamStep s (Evt.stop el)).rows.transactions = s.rows.transactions ++ [row] ∧
        row.getD 12 "" = accountFallback s.look el ∧ accountFallback s.look el ≠ "") := by
  constructor
  · intro cb pe evts
    refine streamRun_pres streamStep_ctrlOk (fun s h => h) (fun s h => h) cb pe evts initState ?_
    exact ⟨fun q hq => absurd hq (List.not_mem_nil q), fun q hq => absurd hq (List.not_mem_nil q)⟩
  · intro s v el hcur htag hok
    rw [streamStep_line s el htag]
    exact lineStop_row s v el hcur hok

/-- Witness for C7: an empty transaction is opened, the control
dictionaries are empty, and the orphan-free line emits one row whose
AccountID cell is the (non-empty) sentinel fallback. -/
theorem line_row_account_id_nonempty_witness :
    ((txStart initState (mkEl "Transaction" none [])).cur =
        some (voucherOf (mkEl "Transaction" none [])) ∧
      lname orphanLine.tag ∈ lineTags ∧
      ctrlOk (txStart initState (mkEl "Transaction" none [])).look) ∧
    (∃ row, (streamStep (txStart initState (mkEl "Transaction" none []))
        (Evt.stop orphanLine)).rows.transactions =
        (txStart initState (mkEl "Transaction" none [])).rows.transactions ++ [row] ∧
      row.getD 12 "" = accountFallback (txStart initState (mkEl "Transaction" none [])).look
        orphanLine ∧
      accountFallback (txStart initState (mkEl "Transaction" none [])).look orphanLine ≠ "") :=
  ⟨⟨rfl, by decide, by decide⟩,
    line_row_account_id_nonempty.2 (txStart initState (mkEl "Transaction" none []))
      (voucherOf (mkEl "Transaction" none [])) orphanLine rfl (by decide) (by decide)⟩


/-!
## C10 — master-data elements without a resolvable ID are skipped entirely
-/

theorem accountStop_none (s : SState) (el : XElem)
    (hft : firstTag el ["AccountID", "GLAccountID"] = none) : accountStop s el = s := by
  unfold accountStop
  rw [hft]

theorem customerStop_none (s : SState) (el : XElem)
    (hft : firstTag el ["CustomerID", "ID"] = none) : customerStop s el = s := by
  unfold customerStop
  rw [hft]

theorem supplierStop_none (s : SState) (el : XElem)
    (hft : firstTag el ["SupplierID", "ID"] = none) : supplierStop s el = s := by
  unfold supplierStop
  rw [hft]

theorem streamStep_account_skip (s : SState) (el : XElem)
    (htag : lname el.tag = "Account" ∨ lname el.tag = "GeneralLedgerAccount")
    (hft : firstTag el ["AccountID", "GLAccountID"] = none) :
    streamStep s (Evt.stop el) = s := by
  rcases htag with hE | hE <;>
    simp [streamStep, condApply, hE, KNOWN, KNOWN_CONTAINERS, lineTags,
      accountStop_none s el hft]

theorem streamStep_customer_skip (s : SState) (el : XElem)
    (htag : lname el.tag = "Customer")
    (hft : firstTag el ["CustomerID", "ID"] = none) :
    streamStep s (Evt.stop el) = s := by
  simp [streamStep, condApply, htag, KNOWN, KNOWN_CONTAINERS, lineTags,
    customerStop_none s el hft]

theorem streamStep_supplier_skip (s : SState) (el : XElem)
    (htag : lname el.tag = "Supplier")
    (hft : firstTag el ["SupplierID", "ID"] = none) :
    streamStep s (Evt.stop el) = s := by
  simp [streamStep, condApply, htag, KNOWN, KNOWN_CONTAINERS, lineTags,
    supplierStop_none s el hft]

theorem accountStop_idRowsOk (s : SState) (el : XElem) (h : idRowsOk s) :
    idRowsOk (accountStop s el) := by
  unfold accountStop
  cases hft : firstTag el ["AccountID", "GLAccountID"] with
  | none => exact h
  | some accId =>
      dsimp only
      refine ⟨?_, h.2.1, h.2.2⟩
      intro r hr
      rcases List.mem_append.mp hr with h1 | h2
      · exact h.1 r h1
      · rcases List.mem_singleton.mp h2 with rfl
        simp only [List.getD_cons_zero]
        exact firstTag_ne_empty hft

theorem customerStop_idRowsOk (s : SState) (el : XElem) (h : idRowsOk s) :
    idRowsOk (customerStop s el) := by
  unfold customerStop
  cases hft : firstTag el ["CustomerID", "ID"] with
  | none => exact h
  | some cid =>
      dsimp only
      refine ⟨h.1, ?_, h.2.2⟩
      intro r hr
      rcases List.mem_append.mp hr with h1 | h2
      · exact h.2.1 r h1
      · rcases List.mem_singleton.mp h2 with rfl
        simp only [List.getD_cons_zero]
        exact firstTag_ne_empty hft

theorem supplierStop_idRowsOk (s : SState) (el : XElem) (h : idRowsOk s) :
    idRowsOk (supplierStop s el) := by
  unfold supplierStop
  cases hft : firstTag el ["SupplierID", "ID"] with
  | none => exact h
  | some sid =>
      dsimp only
      refine ⟨h.1, h.2.1, ?_⟩
      intro r hr
      rcases List.mem_append.mp hr with h1 | h2
      · exact h.2.2 r h1
      · rcases List.mem_singleton.mp h2 with rfl
        simp only [List.getD_cons_zero]
        exact firstTag_ne_empty hft

theorem journalTotalsStop_idRowsOk (s : SState) (el : XElem) (h : idRowsOk s) :
    idRowsOk (journalTotalsStop s el) := by
  unfold journalTotalsStop
  dsimp only
  split
  · exact h
  · exact h

theorem journalMetaStop_idRowsOk (s : SState) (el : XElem) (h : idRowsOk s) :
    idRowsOk (journalMetaStop s el) := by
  unfold journalMetaStop
  dsimp only
  split
  · exact h
  · exact h

theorem lineStop_idRowsOk (s : SState) (el : XElem) (h : idRowsOk s) :
    idRowsOk (lineStop s el) := by
  unfold lineStop
  split
  · exact h
  · exact h

theorem txStop_idRowsOk (s : SState) (el : XElem) (h : idRowsOk s) :
    idRowsOk (txStop s el) := by
  unfold txStop
  split
  · exact h
  · exact h

theorem streamStep_idRowsOk (s : SState) (ev : Evt) (h : idRowsOk s) :
    idRowsOk (streamStep s ev) :=
  streamStep_pres (fun _ _ h2 => h2) (fun _ _ h2 => h2) (fun _ _ h2 => h2)
    accountStop_idRowsOk (fun _ _ h2 => h2) customerStop_idRowsOk supplierStop_idRowsOk
    journalTotalsStop_idRowsOk journalMetaStop_idRowsOk lineStop_idRowsOk txStop_idRowsOk
    s ev h

/-- C10.  The claim holds: an `Account`/`GeneralLedgerAccount`,
`Customer`, or `Supplier` close event whose ID does not resolve to
non-empty text leaves the state completely unchanged — no sink row, no
lookup entry, no control-account link — and consequently every row of the
accounts, customers and suppliers sinks of any run carries a non-empty
ID. -/
theorem masterdata_skip_without_id :
    (∀ (s : SState) (el : XElem),
      lname el.tag = "Account" ∨ lname el.tag = "GeneralLedgerAccount" →
      firstTag el ["AccountID", "GLAccountID"] = none → streamStep s (Evt.stop el) = s) ∧
    (∀ (s : SState) (el : XElem), lname el.tag = "Customer" →
      firstTag el ["CustomerID", "ID"] = none → streamStep s (Evt.stop el) = s) ∧
    (∀ (s : SState) (el : XElem), lname el.tag = "Supplier" →
      firstTag el ["SupplierID", "ID"] = none → streamStep s (Evt.stop el) = s) ∧
    (∀ cb pe evts, idRowsOk (streamRun cb pe initState evts)) := by
  refine ⟨streamStep_account_skip, streamStep_customer_skip, streamStep_supplier_skip, ?_⟩
  intro cb pe evts
  refine streamRun_pres streamStep_idRowsOk (fun s h => h) (fun s h => h) cb pe evts initState ?_
  exact ⟨fun r hr => absurd hr (List.not_mem_nil r),
    fun r hr => absurd hr (List.not_mem_nil r),
    fun r hr => absurd hr (List.not_mem_nil r)⟩

/-- Witness for C10: an `Account` element carrying only a description (no
resolvable ID) is skipped; the concrete document run keeps non-empty IDs in
all three master-data sinks. -/
theorem masterdata_skip_without_id_witness :
    (lname (mkEl "Account" none [mkLeaf "AccountDescription" "x"]).tag = "Account" ∨
      lname (mkEl "Account" none [mkLeaf "AccountDescription" "x"]).tag =
        "GeneralLedgerAccount") ∧
    firstTag (mkEl "Account" none [mkLeaf "AccountDescription" "x"])
      ["AccountID", "GLAccountID"] = none ∧
    streamStep initState (Evt.stop (mkEl "Account" none [mkLeaf "AccountDescription" "x"])) =
      initState ∧
    idRowsOk (streamRun none 50000 initState docSmall.events) :=
  ⟨Or.inl rfl, by decide,
    masterdata_skip_without_id.1 initState (mkEl "Account" none [mkLeaf "AccountDescription" "x"])
      (Or.inl rfl) (by decide),
    (masterdata_skip_without_id.2.2.2 none 50000 docSmall.events)⟩


/-!
## C1 — voucher balance: neutral-event machinery
-/

theorem mem_handlerTags_of_lineTags {t : String} (h : t ∈ lineTags) : t ∈ handlerTags := by
  simp only [lineTags, List.mem_cons, List.mem_singleton, List.not_mem_nil, or_false] at h
  rcases h with rfl | rfl | rfl <;> decide

theorem lineTags_ne_transaction {t : String} (h : t ∈ lineTags) : t ≠ "Transaction" := by
  simp only [lineTags, List.mem_cons, List.mem_singleton, List.not_mem_nil, or_false] at h
  rcases h with rfl | rfl | rfl <;> decide

theorem keepState_rfl (s : SState) : keepState s s := ⟨rfl, rfl, rfl, rfl, rfl⟩

theorem keepState_trans {a b c : SState} (h1 : keepState a b) (h2 : keepState b c) :
    keepState a c :=
  ⟨h2.1.trans h1.1, h2.2.1.trans h1.2.1, h2.2.2.1.trans h1.2.2.1,
    h2.2.2.2.1.trans h1.2.2.2.1, h2.2.2.2.2.trans h1.2.2.2.2⟩

theorem keepState_tick {s s2 : SState} (h : keepState s s2) :
    keepState s { s2 with events := s2.events + 1 } :=
  ⟨h.1, h.2.1, h.2.2.1, h.2.2.2.1, h.2.2.2.2⟩

theorem streamStep_start_neutral (s : SState) (el : XElem)
    (h : lname el.tag ≠ "Transaction") : streamStep s (Evt.start el) = s := by
  show condApply (lname el.tag = "Transaction") (fun s2 => txStart s2 el) s = s
  exact condApply_neg h _ s

theorem streamStep_start_tx (s : SState) (el : XElem)
    (h : lname el.tag = "Transaction") : streamStep s (Evt.start el) = txStart s el := by
  show condApply (lname el.tag = "Transaction") (fun s2 => txStart s2 el) s = txStart s el
  exact condApply_pos h _ s

theorem streamStep_stop_neutral (s : SState) (el : XElem)
    (h : lname el.tag ∉ handlerTags) : keepState s (streamStep s (Evt.stop el)) := by
  have hHeader : ¬(lname el.tag = "Header") := fun e => h (by rw [e]; decide)
  have hAcc : ¬(lname el.tag = "Account" ∨ lname el.tag = "GeneralLedgerAccount") := by
    rintro (e | e) <;> exact h (by rw [e]; decide)
  have hTaxT : ¬(lname el.tag = "TaxTableEntry") := fun e => h (by rw [e]; decide)
  have hCust : ¬(lname el.tag = "Customer") := fun e => h (by rw [e]; decide)
  have hSupp : ¬(lname el.tag = "Supplier") := fun e => h (by rw [e]; decide)
  have hJour : ¬(lname el.tag = "Journal") := fun e => h (by rw [e]; decide)
  have hLine : ¬(lname el.tag ∈ lineTags) := fun e => h (mem_handlerTags_of_lineTags e)
  have hTx : ¬(lname el.tag = "Transaction") := fun e => h (by rw [e]; decide)
  show keepState s (condApply _ _ (condApply _ _ (condApply _ _ (condApply _ _
    (condApply _ _ (condApply _ _ (condApply _ _ (condApply _ _ (condApply _ _ s)))))))))
  rw [condApply_neg hTx, condApply_neg hLine, condApply_neg hJour, condApply_neg hSupp,
    condApply_neg hCust, condApply_neg hTaxT, condApply_neg hAcc, condApply_neg hHeader]
  unfold condApply
  split
  · exact ⟨rfl, rfl, rfl, rfl, rfl⟩
  · exact keepState_rfl s

mutual

theorem events_chars (e : XElem) :
    ∀ ev ∈ e.events, ∃ x, x ∈ e.iterAll ∧ (ev = Evt.start x ∨ ev = Evt.stop x) := by
  obtain ⟨t, a, x, cs⟩ := e
  intro ev hev
  rw [XElem.events] at hev
  rcases List.mem_cons.mp hev with h1 | h2
  · exact ⟨XElem.node t a x cs, by rw [XElem.iterAll]; exact List.mem_cons_self _ _, Or.inl h1⟩
  · rcases List.mem_append.mp h2 with h3 | h4
    · obtain ⟨c, hc1, hc2⟩ := events_chars_list cs ev h3
      exact ⟨c, by rw [XElem.iterAll]; exact List.mem_cons_of_mem _ hc1, hc2⟩
    · rcases List.mem_singleton.mp h4 with rfl
      exact ⟨XElem.node t a x cs, by rw [XElem.iterAll]; exact List.mem_cons_self _ _,
        Or.inr rfl⟩

theorem events_chars_list (cs : List XElem) :
    ∀ ev ∈ XElem.eventsList cs,
      ∃ x, x ∈ XElem.iterAllList cs ∧ (ev = Evt.start x ∨ ev = Evt.stop x) := by
  cases cs with
  | nil => intro ev hev; cases hev
  | cons c cs2 =>
      intro ev hev
      rw [XElem.eventsList] at hev
      rcases List.mem_append.mp hev with h1 | h2
      · obtain ⟨y, hy1, hy2⟩ := events_chars c ev h1
        exact ⟨y, by rw [XElem.iterAllList]; exact List.mem_append.mpr (Or.inl hy1), hy2⟩
      · obtain ⟨y, hy1, hy2⟩ := events_chars_list cs2 ev h2
        exact ⟨y, by rw [XElem.iterAllList]; exact List.mem_append.mpr (Or.inr hy1), hy2⟩

end

theorem run_neutral {pe : Nat} : ∀ (evts : List Evt), (∀ ev ∈ evts, neutralEvt ev) →
    ∀ s, keepState s (streamRun none pe s evts) := by
  intro evts
  induction evts with
  | nil => intro _ s; exact keepState_rfl s
  | cons ev rest ih =>
      intro h s
      have hev := h ev (List.mem_cons_self ev rest)
      have hrest := fun e he => h e (List.mem_cons_of_mem ev he)
      cases ev with
      | start el =>
          show keepState s (streamRun none pe (streamStep s (Evt.start el)) rest)
          rw [streamStep_start_neutral s el hev]
          exact ih hrest s
      | stop el =>
          show keepState s (streamRun none pe
            { streamStep s (Evt.stop el) with
              events := (streamStep s (Evt.stop el)).events + 1 } rest)
          have h1 : keepState s (streamStep s (Evt.stop el)) :=
            streamStep_stop_neutral s el hev
          have h2 := keepState_tick h1
          exact keepState_trans h2 (ih hrest _)

theorem plain_events_neutral {e : XElem} (hp : plainEl e) :
    ∀ ev ∈ e.events, neutralEvt ev := by
  intro ev hev
  obtain ⟨x, hx, hc⟩ := events_chars e ev hev
  have hnx := hp x hx
  rcases hc with rfl | rfl
  · exact fun e2 => hnx (by rw [e2]; decide)
  · exact hnx

theorem mem_iterAllList_of_mem {x c : XElem} : ∀ {cs : List XElem}, c ∈ cs →
    x ∈ c.iterAll → x ∈ XElem.iterAllList cs := by
  intro cs
  induction cs with
  | nil => intro h; cases h
  | cons d cs2 ih =>
      intro hmem hx
      rw [XElem.iterAllList]
      rcases List.mem_cons.mp hmem with rfl | h2
      · exact List.mem_append.mpr (Or.inl hx)
      · exact List.mem_append.mpr (Or.inr (ih h2 hx))


theorem self_mem_iterAll (e : XElem) : e ∈ e.iterAll := by
  obtain ⟨t, a, x, cs⟩ := e
  rw [XElem.iterAll]
  exact List.mem_cons_self _ _

theorem streamStep_stop_tx (s : SState) (el : XElem)
    (h : lname el.tag = "Transaction") : streamStep s (Evt.stop el) = txStop s el := by
  simp [streamStep, condApply, h, KNOWN, KNOWN_CONTAINERS, lineTags]

theorem lineStop_effect (s : SState) (v : Voucher) (el : XElem) (hcur : s.cur = some v) :
    (lineStop s el).look = s.look ∧ (lineStop s el).rows.vouchers = s.rows.vouchers ∧
    (lineStop s el).cur = some { v with
      debit := v.debit.add (Dec.orZero (amountOf el "DebitAmount")),
      credit := v.credit.add (Dec.orZero (amountOf el "CreditAmount")) } := by
  unfold lineStop
  rw [hcur]
  exact ⟨rfl, rfl, rfl⟩

theorem txStop_effect (s : SState) (v : Voucher) (el : XElem) (hcur : s.cur = some v) :
    (txStop s el).rows.vouchers = s.rows.vouchers ++
      [[orEmpty v.voucherId, orEmpty v.voucherNo, orEmpty v.txDate, orEmpty v.postDate,
        orEmpty v.period, orEmpty v.year, orEmpty v.sourceDoc, orEmpty v.journalId,
        orEmpty v.currency, orEmpty v.vtype, orEmpty v.vdesc, orEmpty v.modDate,
        Dec.repr v.debit, Dec.repr v.credit,
        if decide (Dec.le (Dec.copyAbs (v.debit.sub v.credit)) ⟨5, 3⟩) = true
        then "Y" else "N"]] := by
  unfold txStop
  rw [hcur]

theorem line_run (pe : Nat) (l : XElem) (hl : lname l.tag ∈ lineTags)
    (hp : ∀ x ∈ l.descendants, lname x.tag ∉ handlerTags)
    (s : SState) (v : Voucher) (hcur : s.cur = some v) :
    (streamRun none pe s l.events).look = s.look ∧
    (streamRun none pe s l.events).rows.vouchers = s.rows.vouchers ∧
    (streamRun none pe s l.events).cur = some { v with
      debit := v.debit.add (Dec.orZero (amountOf l "DebitAmount")),
      credit := v.credit.add (Dec.orZero (amountOf l "CreditAmount")) } := by
  obtain ⟨t, a, x, cs⟩ := l
  rw [XElem.events]
  have hne : lname (XElem.node t a x cs).tag ≠ "Transaction" := lineTags_ne_transaction hl
  have e1 : streamRun none pe s
      (Evt.start (XElem.node t a x cs) ::
        (XElem.eventsList cs ++ [Evt.stop (XElem.node t a x cs)])) =
      streamRun none pe s (XElem.eventsList cs ++ [Evt.stop (XElem.node t a x cs)]) := by
    show streamRun none pe (streamStep s (Evt.start (XElem.node t a x cs))) _ = _
    rw [streamStep_start_neutral s _ hne]
  rw [e1, streamRun_append]
  have hkeep : keepState s (streamRun none pe s (XElem.eventsList cs)) := by
    apply run_neutral
    intro ev hev
    obtain ⟨y, hy1, hy2⟩ := events_chars_list cs ev hev
    have hny : lname y.tag ∉ handlerTags := hp y hy1
    rcases hy2 with rfl | rfl
    · exact fun e2 => hny (by rw [e2]; decide)
    · exact hny
  set mid := streamRun none pe s (XElem.eventsList cs) with hmid
  have hmidcur : mid.cur = some v := hkeep.2.1.trans hcur
  have e2 : streamRun none pe mid [Evt.stop (XElem.node t a x cs)] =
      { streamStep mid (Evt.stop (XElem.node t a x cs)) with
        events := (streamStep mid (Evt.stop (XElem.node t a x cs))).events + 1 } := rfl
  rw [e2, streamStep_line mid _ hl]
  obtain ⟨g1, g2, g3⟩ := lineStop_effect mid v (XElem.node t a x cs) hmidcur
  refine ⟨?_, ?_, ?_⟩
  · show (lineStop mid (XElem.node t a x cs)).look = s.look
    rw [g1, hkeep.1]
  · show (lineStop mid (XElem.node t a x cs)).rows.vouchers = s.rows.vouchers
    rw [g2, hkeep.2.2.1]
  · show (lineStop mid (XElem.node t a x cs)).cur = _
    rw [g3]

theorem tx_children_run (pe : Nat) : ∀ (cs : List XElem),
    (∀ c ∈ cs, lineOK c ∨ plainEl c) →
    ∀ (s : SState) (v : Voucher), s.cur = some v →
    (streamRun none pe s (XElem.eventsList cs)).look = s.look ∧
    (streamRun none pe s (XElem.eventsList cs)).rows.vouchers = s.rows.vouchers ∧
    ∃ v2, (streamRun none pe s (XElem.eventsList cs)).cur = some v2 ∧
      v2.debit.toRat = v.debit.toRat +
        ((cs.filter (fun c => decide (lname c.tag ∈ lineTags))).map
          (fun c => (Dec.orZero (amountOf c "DebitAmount")).toRat)).sum ∧
      v2.credit.toRat = v.credit.toRat +
        ((cs.filter (fun c => decide (lname c.tag ∈ lineTags))).map
          (fun c => (Dec.orZero (amountOf c "CreditAmount")).toRat)).sum := by
  intro cs
  induction cs with
  | nil =>
      intro _ s v hcur
      exact ⟨rfl, rfl, v, hcur, by simp, by simp⟩
  | cons c cs2 ih =>
      intro h s v hcur
      have hc := h c (List.mem_cons_self c cs2)
      have hrest := fun d hd => h d (List.mem_cons_of_mem c hd)
      rw [XElem.eventsList, streamRun_append]
      rcases hc with hline | hplain
      · obtain ⟨e1, e2, e3⟩ := line_run pe c hline.1 hline.2 s v hcur
        obtain ⟨g1, g2, v2, g3, g4, g5⟩ := ih hrest (streamRun none pe s c.events) _ e3
        have hfc : List.filter (fun c => decide (lname c.tag ∈ lineTags)) (c :: cs2) =
            c :: List.filter (fun c => decide (lname c.tag ∈ lineTags)) cs2 :=
          List.filter_cons_of_pos (by simpa using hline.1)
        refine ⟨g1.trans e1, g2.trans e2, v2, g3, ?_, ?_⟩
        · rw [g4, hfc]
          simp only [List.map_cons, List.sum_cons]
          show _ = v.debit.toRat + ((Dec.orZero (amountOf c "DebitAmount")).toRat + _)
          rw [Dec.toRat_add]
          ring
        · rw [g5, hfc]
          simp only [List.map_cons, List.sum_cons]
          show _ = v.credit.toRat + ((Dec.orZero (amountOf c "CreditAmount")).toRat + _)
          rw [Dec.toRat_add]
          ring
      · have hkeep : keepState s (streamRun none pe s c.events) :=
          run_neutral c.events (plain_events_neutral hplain) s
        have hcur1 : (streamRun none pe s c.events).cur = some v := hkeep.2.1.trans hcur
        obtain ⟨g1, g2, v2, g3, g4, g5⟩ := ih hrest (streamRun none pe s c.events) v hcur1
        have hnl : ¬(lname c.tag ∈ lineTags) :=
          fun e2 => hplain c (self_mem_iterAll c) (mem_handlerTags_of_lineTags e2)
        have hfc : List.filter (fun c => decide (lname c.tag ∈ lineTags)) (c :: cs2) =
            List.filter (fun c => decide (lname c.tag ∈ lineTags)) cs2 :=
          List.filter_cons_of_neg (by simpa using hnl)
        refine ⟨g1.trans hkeep.1, g2.trans (by rw [hkeep.2.2.1]), v2, g3, ?_, ?_⟩
        · rw [g4, hfc]
        · rw [g5, hfc]

/-- C1.  The claim holds: for every `Transaction` element whose children
are transaction lines and handler-free metadata, the streaming parser
emits exactly one voucher row, whose `Balanced` cell is `"Y"` exactly when
the absolute value of the exact sum of the lines' signed amounts
(resolved `DebitAmount` minus resolved `CreditAmount`, each defaulting to
zero) is at most `0.005` — equivalently when the accumulated debit and
credit totals differ by at most `0.005` — and that sum is independent of
the order of the lines. -/
theorem stream_voucher_balanced (pe : Nat) (s : SState) (tx : XElem)
    (htag : lname tx.tag = "Transaction")
    (hch : ∀ c ∈ tx.children, lineOK c ∨ plainEl c) :
    ∃ r, (streamRun none pe s tx.events).rows.vouchers = s.rows.vouchers ++ [r] ∧
      r.getD 14 "" =
        (if |((linesOf tx).map lineSigned).sum| ≤ (1 / 200 : ℚ) then "Y" else "N") ∧
      ∀ ls : List XElem, ls.Perm (linesOf tx) →
        (ls.map lineSigned).sum = ((linesOf tx).map lineSigned).sum := by
  obtain ⟨t, a, x, cs⟩ := tx
  rw [XElem.events]
  have e1 : streamRun none pe s
      (Evt.start (XElem.node t a x cs) ::
        (XElem.eventsList cs ++ [Evt.stop (XElem.node t a x cs)])) =
      streamRun none pe (txStart s (XElem.node t a x cs))
        (XElem.eventsList cs ++ [Evt.stop (XElem.node t a x cs)]) := by
    show streamRun none pe (streamStep s (Evt.start (XElem.node t a x cs))) _ = _
    rw [streamStep_start_tx s _ htag]
  rw [e1, streamRun_append]
  obtain ⟨g1, g2, v2, g3, g4, g5⟩ :=
    tx_children_run pe cs hch (txStart s (XElem.node t a x cs))
      (voucherOf (XElem.node t a x cs)) rfl
  set s2 := streamRun none pe (txStart s (XElem.node t a x cs)) (XElem.eventsList cs) with hs2
  have e2 : streamRun none pe s2 [Evt.stop (XElem.node t a x cs)] =
      { streamStep s2 (Evt.stop (XElem.node t a x cs)) with
        events := (streamStep s2 (Evt.stop (XElem.node t a x cs))).events + 1 } := rfl
  rw [e2, streamStep_stop_tx s2 _ htag]
  have hrows := txStop_effect s2 v2 (XElem.node t a x cs) g3
  refine ⟨[orEmpty v2.voucherId, orEmpty v2.voucherNo, orEmpty v2.txDate, orEmpty v2.postDate,
    orEmpty v2.period, orEmpty v2.year, orEmpty v2.sourceDoc, orEmpty v2.journalId,
    orEmpty v2.currency, orEmpty v2.vtype, orEmpty v2.vdesc, orEmpty v2.modDate,
    Dec.repr v2.debit, Dec.repr v2.credit,
    if decide (Dec.le (Dec.copyAbs (v2.debit.sub v2.credit)) ⟨5, 3⟩) = true
    then "Y" else "N"], ?_, ?_, ?_⟩
  · show (txStop s2 (XElem.node t a x cs)).rows.vouchers = _
    rw [hrows, g2]
    rfl
  · show List.getD _ 14 "" = _
    simp only [List.getD_cons_succ, List.getD_cons_zero]
    have hzero : (voucherOf (XElem.node t a x cs)).debit = Dec.zero := rfl
    have hzero2 : (voucherOf (XElem.node t a x cs)).credit = Dec.zero := rfl
    have hd : v2.debit.toRat =
        ((cs.filter (fun c => decide (lname c.tag ∈ lineTags))).map
          (fun c => (Dec.orZero (amountOf c "DebitAmount")).toRat)).sum := by
      rw [g4, hzero, Dec.toRat_zero, zero_add]
    have hcr : v2.credit.toRat =
        ((cs.filter (fun c => decide (lname c.tag ∈ lineTags))).map
          (fun c => (Dec.orZero (amountOf c "CreditAmount")).toRat)).sum := by
      rw [g5, hzero2, Dec.toRat_zero, zero_add]
    have hcond : (decide (Dec.le (Dec.copyAbs (v2.debit.sub v2.credit)) ⟨5, 3⟩) = true) ↔
        (|((linesOf (XElem.node t a x cs)).map lineSigned).sum| ≤ (1 / 200 : ℚ)) := by
      rw [decide_eq_true_iff, Dec.le_iff_toRat, Dec.toRat_copyAbs, Dec.toRat_sub]
      have hrhs : (Dec.mk 5 3).toRat = (1 / 200 : ℚ) := by
        unfold Dec.toRat
        norm_num
      rw [hrhs]
      have hsum : ((linesOf (XElem.node t a x cs)).map lineSigned).sum =
          v2.debit.toRat - v2.credit.toRat := by
        show ((cs.filter (fun c => decide (lname c.tag ∈ lineTags))).map lineSigned).sum = _
        unfold lineSigned
        rw [sum_map_sub, hd, hcr]
      rw [hsum]
    exact if_congr hcond rfl rfl
  · intro ls hperm
    exact List.Perm.sum_eq (hperm.map lineSigned)


/-- Witness for C1 at the concrete two-line balanced transaction (debit
`100,00` against credit `100.00`). -/
theorem stream_voucher_balanced_witness :
    lname txBalanced.tag = "Transaction" ∧
    (∀ c ∈ txBalanced.children, lineOK c ∨ plainEl c) ∧
    (∃ r, (streamRun none 50000 initState txBalanced.events).rows.vouchers =
        initState.rows.vouchers ++ [r] ∧
      r.getD 14 "" =
        (if |((linesOf txBalanced).map lineSigned).sum| ≤ (1 / 200 : ℚ) then "Y" else "N") ∧
      ∀ ls : List XElem, ls.Perm (linesOf txBalanced) →
        (ls.map lineSigned).sum = ((linesOf txBalanced).map lineSigned).sum) :=
  ⟨rfl, by decide, stream_voucher_balanced 50000 initState txBalanced rfl (by decide)⟩

/-- Witness for the amended C6 theorem at the concrete orphan line and the
initial state. -/
theorem orphan_line_silently_skipped_witness :
    lname orphanLine.tag ∈ lineTags ∧ initState.cur = none ∧
    (streamStep initState (Evt.stop orphanLine) = initState ∧
      ∀ pe rest, streamRun none pe initState (Evt.stop orphanLine :: rest) =
        streamRun none pe { initState with events := initState.events + 1 } rest) :=
  ⟨by decide, rfl, orphan_line_silently_skipped initState orphanLine (by decide) rfl⟩

end Saft
